import Mathlib

/-!
Shallow embedding of the component rendering engine of `component.go`
(package `htmx`, repository go-htmx), together with theorems checking the
natural-language specification against it.

Modelling conventions:
* Go maps become association lists (`List (String × α)`); Go's nil map is
  `Option.none`, distinguishable from the empty map where the code
  distinguishes them (a write to a nil map panics, a read does not).
* Components are heap cells: a `Heap` maps component identifiers (`Cid`,
  standing in for Go pointers) to `Component` records, so the mutation and
  aliasing of the original is explicit state passing.
* `context.Context` carrying the circular-reference marks becomes the list
  of component ids on the active render call chain; `context.WithValue`
  is consing onto that list.
* The Go template engine (`html/template`) is an external collaborator; it
  is a parameter `Engine` with `parse` and `exec` functions, so theorems
  quantify over every engine behaviour.
* Unbounded recursion (`Render` over a possibly cyclic component graph,
  `SetURL`) is step-indexed with explicit fuel; running out of fuel yields
  the distinguished `RErr.outOfFuel`, which no claim confuses with a real
  result.
* A Go panic (assignment to an entry in a nil map) is modelled as `none` /
  `RErr.nilMapWrite`.
* `crypto/sha256` is implemented bit-faithfully over `Nat` with explicit
  `% 2^32` wrap-around, so cache keys are the exact strings the code builds.
-/

namespace GoHtmx

/-! ### Association lists (Go maps) -/

def lookupStr {α : Type} (m : List (String × α)) (k : String) : Option α :=
  match m with
  | [] => none
  | (k', v) :: rest => if k' = k then some v else lookupStr rest k

def updateAssoc {α : Type} (m : List (String × α)) (k : String) (v : α) : List (String × α) :=
  match m with
  | [] => [(k, v)]
  | (k', v') :: rest => if k' = k then (k, v) :: rest else (k', v') :: updateAssoc rest k v

/-- The merge loop `for key, value := range input { if _, ok := m[key]; !ok { m[key] = value } }`:
keys already present in `m` win, keys absent are appended. -/
def injectFold {α : Type} (m input : List (String × α)) : List (String × α) :=
  input.foldl (fun acc kv => if (lookupStr acc kv.1).isSome then acc else acc ++ [kv]) m

/-! ### UTF-8 bytes of a string (Go `[]byte(s)`) -/

def utf8Char (c : Char) : List Nat :=
  let n := c.toNat
  if n < 128 then [n]
  else if n < 2048 then [192 + n / 64, 128 + n % 64]
  else if n < 65536 then [224 + n / 4096, 128 + (n / 64) % 64, 128 + n % 64]
  else [240 + n / 262144, 128 + (n / 4096) % 64, 128 + (n / 64) % 64, 128 + n % 64]

def utf8Bytes (s : String) : List Nat :=
  s.data.foldl (fun acc c => acc ++ utf8Char c) []

/-! ### SHA-256 (Go `crypto/sha256.Sum256`) over byte lists -/

def w32 (n : Nat) : Nat := n % 4294967296

def rotr32 (k x : Nat) : Nat := w32 (Nat.lor (Nat.shiftRight x k) (Nat.shiftLeft x (32 - k)))

def bigSigma0 (x : Nat) : Nat := Nat.xor (Nat.xor (rotr32 2 x) (rotr32 13 x)) (rotr32 22 x)

def bigSigma1 (x : Nat) : Nat := Nat.xor (Nat.xor (rotr32 6 x) (rotr32 11 x)) (rotr32 25 x)

def smallSigma0 (x : Nat) : Nat := Nat.xor (Nat.xor (rotr32 7 x) (rotr32 18 x)) (Nat.shiftRight x 3)

def smallSigma1 (x : Nat) : Nat := Nat.xor (Nat.xor (rotr32 17 x) (rotr32 19 x)) (Nat.shiftRight x 10)

def sha256K : List Nat :=
  [1116352408, 1899447441, 3049323471, 3921009573, 961987163, 1508970993,
   2453635748, 2870763221, 3624381080, 310598401, 607225278, 1426881987,
   1925078388, 2162078206, 2614888103, 3248222580, 3835390401, 4022224774,
   264347078, 604807628, 770255983, 1249150122, 1555081692, 1996064986,
   2554220882, 2821834349, 2952996808, 3210313671, 3336571891, 3584528711,
   113926993, 338241895, 666307205, 773529912, 1294757372, 1396182291,
   1695183700, 1986661051, 2177026350, 2456956037, 2730485921, 2820302411,
   3259730800, 3345764771, 3516065817, 3600352804, 4094571909, 275423344,
   430227734, 506948616, 659060556, 883997877, 958139571, 1322822218,
   1537002063, 1747873779, 1955562222, 2024104815, 2227730452, 2361852424,
   2428436474, 2756734187, 3204031479, 3329325298]

def sha256Init : List Nat :=
  [1779033703, 3144134277, 1013904242, 2773480762,
   1359893119, 2600822924, 528734635, 1541459225]

/-- One round of the compression function on the eight-word state. -/
def sha256Round (st : List Nat) (kw : Nat × Nat) : List Nat :=
  let a := st.getD 0 0
  let b := st.getD 1 0
  let c := st.getD 2 0
  let d := st.getD 3 0
  let e := st.getD 4 0
  let f := st.getD 5 0
  let g := st.getD 6 0
  let hh := st.getD 7 0
  let ch := Nat.xor (Nat.land e f) (Nat.land (Nat.xor e 4294967295) g)
  let temp1 := w32 (hh + bigSigma1 e + ch + kw.1 + kw.2)
  let maj := Nat.xor (Nat.xor (Nat.land a b) (Nat.land a c)) (Nat.land b c)
  let temp2 := w32 (bigSigma0 a + maj)
  [w32 (temp1 + temp2), a, b, c, w32 (d + temp1), e, f, g]

/-- Extend a 16-word block by one scheduled word. -/
def sha256Extend (ws : List Nat) : List Nat :=
  let n := ws.length
  let g := fun (i : Nat) => ws.getD (n - i) 0
  ws ++ [w32 (smallSigma1 (g 2) + g 7 + smallSigma0 (g 15) + g 16)]

def sha256Compress (hsh block : List Nat) : List Nat :=
  let ws := (List.range 48).foldl (fun acc _ => sha256Extend acc) block
  let st := (List.zip sha256K ws).foldl sha256Round hsh
  List.zipWith (fun x y => w32 (x + y)) hsh st

def be64 (n : Nat) : List Nat :=
  [n / 72057594037927936 % 256, n / 281474976710656 % 256, n / 1099511627776 % 256,
   n / 4294967296 % 256, n / 16777216 % 256, n / 65536 % 256, n / 256 % 256, n % 256]

def be32 (n : Nat) : List Nat :=
  [n / 16777216 % 256, n / 65536 % 256, n / 256 % 256, n % 256]

def sha256Pad (msg : List Nat) : List Nat :=
  let len := msg.length
  msg ++ [128] ++ List.replicate ((119 - len % 64) % 64) 0 ++ be64 (8 * len)

/-- Group a byte list into big-endian 32-bit words (the input length is a
multiple of 4 after padding; a ragged tail would be dropped). -/
def toWords : List Nat → List Nat
  | b0 :: b1 :: b2 :: b3 :: rest => (((b0 * 256 + b1) * 256 + b2) * 256 + b3) :: toWords rest
  | _ => []

/-- Group a word list into 16-word blocks (the input length is a multiple of
16 after padding; a ragged tail would be dropped). -/
def toBlocks : List Nat → List (List Nat)
  | w0 :: w1 :: w2 :: w3 :: w4 :: w5 :: w6 :: w7 ::
    w8 :: w9 :: w10 :: w11 :: w12 :: w13 :: w14 :: w15 :: rest =>
      [w0, w1, w2, w3, w4, w5, w6, w7, w8, w9, w10, w11, w12, w13, w14, w15] :: toBlocks rest
  | _ => []

def sha256 (msg : List Nat) : List Nat :=
  let final := (toBlocks (toWords (sha256Pad msg))).foldl sha256Compress sha256Init
  final.foldr (fun wrd acc => be32 wrd ++ acc) []

def hexDigit (n : Nat) : Char :=
  if n < 10 then Char.ofNat (48 + n) else Char.ofNat (87 + n)

/-- Lowercase hex encoding (Go `encoding/hex.EncodeToString`). -/
def hexString (bytes : List Nat) : String :=
  String.mk (bytes.foldr (fun b acc => hexDigit (b / 16) :: hexDigit (b % 16) :: acc) [])

/-! ### Sorting of function names (Go `sort.Strings`) and joining -/

/-- Bytewise-lexicographic string order; UTF-8 byte order coincides with
codepoint order, so comparing `Char` codepoints matches Go's `<=` on strings. -/
def charListLe : List Char → List Char → Bool
  | [], _ => true
  | _ :: _, [] => false
  | a :: as, b :: bs =>
      if a.toNat < b.toNat then true
      else if b.toNat < a.toNat then false
      else charListLe as bs

def strLe (a b : String) : Bool := charListLe a.data b.data

def insertStr (x : String) : List String → List String
  | [] => [x]
  | y :: ys => if strLe x y then x :: y :: ys else y :: insertStr x ys

/-- Ascending sort (Go `sort.Strings`; on strings any correct sort yields
this same list). -/
def sortStrings : List String → List String
  | [] => []
  | x :: xs => insertStr x (sortStrings xs)

/-- Go `strings.Join(names, ",")`. -/
def joinComma : List String → String
  | [] => ""
  | [s] => s
  | s :: s' :: rest => s ++ "," ++ joinComma (s' :: rest)

/-! ### Cache keys -/

/-- Go `template.FuncMap`: function name to an opaque implementation
identifier (the implementation itself never influences the rendering model). -/
abbrev FuncMap := List (String × Nat)

/-- `generateCacheKey` from component.go: the first template identifier,
a colon, and the hex sha256 of the comma-joined sorted function names. -/
def generateCacheKey (templates : List String) (funcs : FuncMap) : String :=
  let funcNames := sortStrings (funcs.map Prod.fst)
  templates.head! ++ ":" ++ hexString (sha256 (utf8Bytes (joinComma funcNames)))

/-! ### The data model: components and the heap -/

/-- Component identifier, standing in for a Go pointer `*Component`. -/
abbrev Cid := Nat

/-- Values stored in the `map[string]any` data maps.  The render loop stores
`template.HTML` strings (`vHtml`) into the partial map; user data in the
claims is integers and strings. -/
inductive Value where
  | vInt : Int → Value
  | vStr : String → Value
  | vHtml : String → Value
deriving DecidableEq, Repr

abbrev DataMap := List (String × Value)

/-- The `Component` struct of component.go.  `Option` marks the fields whose
nil-ness the code can observe (a write to a nil map panics); `with`,
`templates` and `functions` are plain lists because nil and empty behave
identically on every path that touches them.  The Go field `with` is named
`withChildren` (`with` is reserved), `partial` is named `partialResults`. -/
structure Component where
  templateData : Option DataMap
  withChildren : List (String × Cid)
  partialResults : Option (List (String × Value))
  globalData : Option DataMap
  wrappedRenderer : Option Cid
  wrappedTarget : String
  templates : List String
  url : Option String
  functions : FuncMap
  fsys : Nat
deriving DecidableEq, Repr

/-- `NewComponent(templates...)`: initialises `templateData`, `functions`,
`partial` and `with`; `globalData` and `url` stay nil. -/
def NewComponent (templates : List String) : Component :=
  { templateData := some []
    withChildren := []
    partialResults := some []
    globalData := none
    wrappedRenderer := none
    wrappedTarget := ""
    templates := templates
    url := none
    functions := []
    fsys := 0 }

/-- Lookup in the local data map through the nil case (reading a nil map
yields a miss in Go). -/
def odLookup (m : Option DataMap) (k : String) : Option Value :=
  match m with
  | none => none
  | some l => lookupStr l k

def tdLookup (c : Component) (k : String) : Option Value := odLookup c.templateData k

def gdLookup (c : Component) (k : String) : Option Value := odLookup c.globalData k

/-! ### Component operations (composition and data API) -/

/-- `Wrap`: records the wrapping renderer and target slot. -/
def Component.Wrap (c : Component) (renderer : Cid) (target : String) : Component :=
  { c with wrappedRenderer := some renderer, wrappedTarget := target }

/-- `Attach`: appends a template identifier. -/
def Component.Attach (c : Component) (target : String) : Component :=
  { c with templates := c.templates ++ [target] }

/-- `SetData`: the nil-check-and-make is immediately overwritten by the
assignment `c.templateData = input`, so the net effect is the assignment —
in particular `SetData(nil)` leaves the map nil. -/
def Component.SetData (c : Component) (input : Option DataMap) : Component :=
  { c with templateData := input }

/-- `AddData`: lazily creates the map when nil, then writes the key. -/
def Component.AddData (c : Component) (key : String) (v : Value) : Component :=
  { c with templateData := some (updateAssoc (c.templateData.getD []) key v) }

/-- `SetGlobalData`: like `SetData`, the net effect is the assignment. -/
def Component.SetGlobalData (c : Component) (input : Option DataMap) : Component :=
  { c with globalData := input }

/-- `AddGlobalData`: lazily creates the map when nil, then writes the key. -/
def Component.AddGlobalData (c : Component) (key : String) (v : Value) : Component :=
  { c with globalData := some (updateAssoc (c.globalData.getD []) key v) }

/-- `AddTemplateFunction`: registers (or replaces) one function. -/
def Component.AddTemplateFunction (c : Component) (name : String) (fid : Nat) : Component :=
  { c with functions := updateAssoc c.functions name fid }

/-- `Reset`: fresh data, partials and children; templates, functions, fs
and the wrap fields survive. -/
def Component.Reset (c : Component) : Component :=
  { c with templateData := some [], globalData := some [],
           partialResults := some [], withChildren := [], url := none }

/-- `injectData`: merges `input` into `templateData` without overwriting
existing keys.  There is NO nil check in the source: when `templateData` is
nil and `input` has at least one key, the first assignment panics (`none`).
Ranging over a nil or empty `input` performs no writes. -/
def Component.injectData (c : Component) (input : Option DataMap) : Option Component :=
  match input with
  | none => some c
  | some l =>
    match c.templateData with
    | some m => some { c with templateData := some (injectFold m l) }
    | none => if l = [] then some c else none

/-- `injectGlobalData`: first materialises `globalData` when nil, then merges
`input` without overwriting existing keys; it never panics. -/
def Component.injectGlobalData (c : Component) (input : Option DataMap) : Component :=
  { c with globalData := some (injectFold (c.globalData.getD []) (input.getD [])) }

/-- `addPartial`: `c.partial[key] = value`; writing to a nil map panics. -/
def Component.addPartial (c : Component) (key : String) (v : Value) : Option Component :=
  match c.partialResults with
  | some m => some { c with partialResults := some (updateAssoc m key v) }
  | none => none

/-- `partials()`: accessor for the children map. -/
def Component.partials (c : Component) : List (String × Cid) := c.withChildren

/-! ### The heap and heap-level operations -/

abbrev Heap := Cid → Component

def updateH (h : Heap) (i : Cid) (c : Component) : Heap :=
  fun j => if j = i then c else h j

def injectDataH (h : Heap) (i : Cid) (input : Option DataMap) : Option Heap :=
  match (h i).injectData input with
  | none => none
  | some c' => some (updateH h i c')

def injectGlobalDataH (h : Heap) (i : Cid) (input : Option DataMap) : Heap :=
  updateH h i ((h i).injectGlobalData input)

def addPartialH (h : Heap) (i : Cid) (key : String) (v : Value) : Option Heap :=
  match (h i).addPartial key v with
  | none => none
  | some c' => some (updateH h i c')

/-- `SetURL`: sets the url, then recursively sets it on every currently
registered child.  The Go recursion is unbounded (it would not terminate on
a cyclic graph), hence the fuel. -/
def setURLH : Nat → Heap → Cid → Option String → Heap
  | 0, h, _, _ => h
  | fuel + 1, h, c, u =>
    let h1 := updateH h c { h c with url := u }
    ((h1 c).withChildren).foldl (fun acc kv => setURLH fuel acc kv.2 u) h1

/-- `With(r, target)`: when this component's url is set, eagerly propagates
it to `r` via `SetURL`, then registers `r` under `target`. -/
def WithH (fuel : Nat) (h : Heap) (c r : Cid) (target : String) : Heap :=
  let h1 := match (h c).url with
    | some u => setURLH fuel h r (some u)
    | none => h
  updateH h1 c { h1 c with withChildren := updateAssoc (h1 c).withChildren target r }

/-! ### The template engine collaborator and the process-wide state -/

/-- The data envelope handed to `Template.Execute` (the anonymous struct in
`renderNamed`). -/
structure Envelope where
  Ctx : List Cid
  Data : Option DataMap
  Global : Option DataMap
  Partials : Option (List (String × Value))
  URL : Option String
deriving DecidableEq, Repr

/-- The external `html/template` engine: `parse` is
`template.New(name).Funcs(functions).ParseFS(fs, templates...)` producing an
opaque compiled-template handle, `exec` is `Template.Execute` on the data
envelope. -/
structure Engine where
  parse : Nat → String → List String → FuncMap → Except String Nat
  exec : Nat → Envelope → Except String String

/-- The package-level mutable state: `DefaultTemplateFuncs`,
`UseTemplateCache` and `templateCache`. -/
structure GState where
  DefaultTemplateFuncs : FuncMap
  UseTemplateCache : Bool
  templateCache : List (String × Nat)
deriving DecidableEq, Repr

/-- Error outcomes of a render.  `outOfFuel` is an artifact of the
step-indexed embedding; `nilMapWrite` models the Go runtime panic on
assignment to an entry in a nil map. -/
inductive RErr where
  | circularReference
  | noTemplates
  | compileError : String → RErr
  | executionError : String → RErr
  | nilMapWrite
  | outOfFuel
deriving DecidableEq, Repr

structure RenderResult where
  gs : GState
  heap : Heap
  html : String
  err : Option RErr

structure LoopResult where
  gs : GState
  heap : Heap
  err : Option RErr

/-- The effective function registry of `renderNamed`: process-wide defaults
overlaid with the component's own registrations. -/
def mergeFuncMap (defaults fns : FuncMap) : FuncMap :=
  fns.foldl (fun acc kv => updateAssoc acc kv.1 kv.2) defaults

/-- Go `filepath.Base` restricted to slash-separated paths. -/
def baseName (p : String) : String :=
  let cs := p.data
  let trimmed := (cs.reverse.dropWhile (fun c => c = '/')).reverse
  if cs = [] then "."
  else if trimmed = [] then "/"
  else String.mk ((trimmed.reverse.takeWhile (fun c => c ≠ '/')).reverse)

/-- The data envelope built in `renderNamed` from the component's state. -/
def envelopeFor (h : Heap) (ctx : List Cid) (c : Cid) (input : Option DataMap) : Envelope :=
  { Ctx := ctx, Data := input, Global := (h c).globalData,
    Partials := (h c).partialResults, URL := (h c).url }

/-- `renderNamed`: empty template list short-circuits to `("", nil)`; builds
the function registry and cache key, looks up or (re)compiles and stores the
template, then executes it on the data envelope.  The cached-entry type
assertion cannot fail here because the cache only ever stores compiled
handles, exactly as in the running Go program. -/
def renderNamed (eng : Engine) (gs : GState) (h : Heap) (ctx : List Cid) (c : Cid)
    (name : String) (templates : List String) (input : Option DataMap) :
    GState × String × Option RErr :=
  if templates = [] then (gs, "", none)
  else
    let functions := mergeFuncMap gs.DefaultTemplateFuncs (h c).functions
    let cacheKey := generateCacheKey templates functions
    let cachedTmpl := lookupStr gs.templateCache cacheKey
    let compiled : Except String (GState × Nat) :=
      if cachedTmpl.isNone || !gs.UseTemplateCache then
        match eng.parse (h c).fsys name templates functions with
        | .error e => .error e
        | .ok t => .ok ({ gs with templateCache := updateAssoc gs.templateCache cacheKey t }, t)
      else
        .ok (gs, cachedTmpl.getD 0)
    match compiled with
    | .error e => (gs, "", some (.compileError e))
    | .ok (gs', t) =>
      match eng.exec t (envelopeFor h ctx c input) with
      | .error e => (gs', "", some (.executionError e))
      | .ok out => (gs', out, none)

/-- The child loop of `Render`: for each registered child, inject the
parent's local and global data, render the child on the extended chain, and
store its output under the slot name in the parent's partial map; the first
error aborts.  `renderChild` is the recursive call at the next fuel level. -/
def renderChildren (renderChild : GState → Heap → Cid → RenderResult)
    (gs : GState) (h : Heap) (p : Cid) : List (String × Cid) → LoopResult
  | [] => ⟨gs, h, none⟩
  | (key, child) :: rest =>
    match injectDataH h child ((h p).templateData) with
    | none => ⟨gs, h, some .nilMapWrite⟩
    | some h1 =>
      let h2 := injectGlobalDataH h1 child ((h1 p).globalData)
      match renderChild gs h2 child with
      | ⟨gs1, h3, _, some e⟩ => ⟨gs1, h3, some e⟩
      | ⟨gs1, h3, out, none⟩ =>
        match addPartialH h3 p key (Value.vHtml out) with
        | none => ⟨gs1, h3, some .nilMapWrite⟩
        | some h4 => renderChildren renderChild gs1 h4 p rest

/-- `Render`: rejects a component already on the active chain, marks itself
on the derived chain, renders all children, requires a non-empty template
list, and delegates to `renderNamed` with the base name of the first
template. -/
def render (eng : Engine) : Nat → GState → Heap → List Cid → Cid → RenderResult
  | 0, gs, h, _, _ => ⟨gs, h, "", some .outOfFuel⟩
  | fuel + 1, gs, h, ctx, c =>
    if c ∈ ctx then ⟨gs, h, "", some .circularReference⟩
    else
      let ctx' := c :: ctx
      match renderChildren (fun gs1 h1 child => render eng fuel gs1 h1 ctx' child)
          gs h c ((h c).withChildren) with
      | ⟨gs1, h1, some e⟩ => ⟨gs1, h1, "", some e⟩
      | ⟨gs1, h1, none⟩ =>
        match (h1 c).templates with
        | [] => ⟨gs1, h1, "", some .noTemplates⟩
        | t :: ts =>
          let rn := renderNamed eng gs1 h1 ctx' c (baseName t) (t :: ts) ((h1 c).templateData)
          ⟨rn.1, h1, rn.2.1, rn.2.2⟩

/-! ### Concrete fixtures used by witnesses and counterexamples -/

/-- An engine that always compiles and always renders the markup `"X"`. -/
def okEngine : Engine :=
  { parse := fun _ _ _ _ => .ok 0, exec := fun _ _ => .ok "X" }

/-- The package state at process start: no default functions, caching on,
empty cache. -/
def gs0 : GState :=
  { DefaultTemplateFuncs := [], UseTemplateCache := true, templateCache := [] }

/-! ### Association-list lemmas -/

theorem lookupStr_updateAssoc {α : Type} (m : List (String × α)) (k k' : String) (v : α) :
    lookupStr (updateAssoc m k v) k' = if k = k' then some v else lookupStr m k' := by
  induction m with
  | nil => simp [updateAssoc, lookupStr]
  | cons kv t ih =>
    obtain ⟨a, b⟩ := kv
    by_cases hak : a = k
    · subst hak
      simp only [updateAssoc, if_pos rfl, lookupStr]
      by_cases hk : a = k' <;> simp [hk]
    · simp only [updateAssoc, if_neg hak, lookupStr]
      by_cases hk : a = k'
      · subst hk
        have : ¬ k = a := fun hh => hak hh.symm
        simp [this]
      · simp [hk, ih]

theorem lookupStr_append_single {α : Type} (m : List (String × α)) (a k : String) (b : α) :
    lookupStr (m ++ [(a, b)]) k =
      match lookupStr m k with
      | some v => some v
      | none => if a = k then some b else none := by
  induction m with
  | nil => simp [lookupStr]
  | cons kv t ih =>
    obtain ⟨k', v'⟩ := kv
    by_cases h : k' = k <;> simp [lookupStr, h, ih]

theorem lookupStr_injectFold {α : Type} (l m : List (String × α)) (k : String) :
    lookupStr (injectFold m l) k =
      match lookupStr m k with
      | some v => some v
      | none => lookupStr l k := by
  induction l generalizing m with
  | nil =>
    cases h : lookupStr m k <;> simp [injectFold, h, lookupStr]
  | cons kv t ih =>
    obtain ⟨a, b⟩ := kv
    have hstep : injectFold m ((a, b) :: t) =
        injectFold (if (lookupStr m a).isSome then m else m ++ [(a, b)]) t := rfl
    rw [hstep, ih]
    by_cases ha : (lookupStr m a).isSome
    · simp only [ha, if_pos]
      cases hm : lookupStr m k
      · by_cases hak : a = k
        · subst hak
          rw [hm] at ha
          simp at ha
        · simp [lookupStr, hak]
      · simp
    · simp only [ha, if_neg, Bool.false_eq_true, not_false_iff]
      rw [lookupStr_append_single]
      cases hm : lookupStr m k
      · simp only [lookupStr]
        by_cases hak : a = k <;> simp [hak]
      · simp

/-! ### Component-level injection lemmas -/

theorem injectData_shape (c c' : Component) (input : Option DataMap)
    (h : c.injectData input = some c') :
    c' = { c with templateData := c'.templateData } := by
  unfold Component.injectData at h
  cases input with
  | none =>
    simp only [Option.some.injEq] at h
    subst h
    rfl
  | some l =>
    cases htd : c.templateData with
    | some m =>
      rw [htd] at h
      simp only [Option.some.injEq] at h
      subst h
      rfl
    | none =>
      rw [htd] at h
      have h' : (if l = [] then some c else (none : Option Component)) = some c' := h
      by_cases hl : l = []
      · rw [if_pos hl] at h'
        injection h' with h2
        subst h2
        rfl
      · rw [if_neg hl] at h'
        exact absurd h' (by simp)

theorem injectData_lookup (c c' : Component) (input : Option DataMap) (k : String)
    (h : c.injectData input = some c') :
    tdLookup c' k =
      match tdLookup c k with
      | some v => some v
      | none => odLookup input k := by
  unfold Component.injectData at h
  cases input with
  | none =>
    simp only [Option.some.injEq] at h
    subst h
    cases htd : tdLookup c k <;> simp [odLookup]
  | some l =>
    cases htd : c.templateData with
    | some m =>
      rw [htd] at h
      simp only [Option.some.injEq] at h
      subst h
      simp only [tdLookup, odLookup, htd]
      rw [lookupStr_injectFold]
      cases lookupStr m k <;> rfl
    | none =>
      rw [htd] at h
      have h' : (if l = [] then some c else (none : Option Component)) = some c' := h
      by_cases hl : l = []
      · rw [if_pos hl] at h'
        injection h' with h2
        subst h2
        simp [tdLookup, odLookup, htd, hl, lookupStr]
      · rw [if_neg hl] at h'
        exact absurd h' (by simp)

theorem injectData_some_of_some (c : Component) (m : DataMap) (input : Option DataMap)
    (h : c.templateData = some m) : ∃ c', c.injectData input = some c' := by
  cases input with
  | none => exact ⟨c, rfl⟩
  | some l =>
    exact ⟨_, by unfold Component.injectData; rw [h]⟩

theorem injectData_self_some (c : Component) : ∃ c', c.injectData c.templateData = some c' := by
  unfold Component.injectData
  cases htd : c.templateData with
  | none => exact ⟨c, rfl⟩
  | some m => exact ⟨_, rfl⟩

theorem injectGlobalData_shape (c : Component) (input : Option DataMap) :
    c.injectGlobalData input =
      { c with globalData := (c.injectGlobalData input).globalData } := rfl

theorem injectGlobalData_lookup (c : Component) (input : Option DataMap) (k : String) :
    gdLookup (c.injectGlobalData input) k =
      match gdLookup c k with
      | some v => some v
      | none => odLookup input k := by
  have h0 : gdLookup (c.injectGlobalData input) k
      = lookupStr (injectFold (c.globalData.getD []) (input.getD [])) k := rfl
  rw [h0, lookupStr_injectFold]
  have h1 : lookupStr (c.globalData.getD []) k = gdLookup c k := by
    cases hg : c.globalData <;> simp [gdLookup, odLookup, hg, lookupStr]
  have h2 : lookupStr (input.getD []) k = odLookup input k := by
    cases input <;> simp [odLookup, lookupStr]
  rw [h1, h2]
  cases gdLookup c k <;> rfl

theorem addPartial_shape (c c' : Component) (key : String) (v : Value)
    (h : c.addPartial key v = some c') :
    ∃ m, c.partialResults = some m ∧
      c' = { c with partialResults := some (updateAssoc m key v) } := by
  unfold Component.addPartial at h
  cases hm : c.partialResults with
  | none => rw [hm] at h; exact absurd h (by simp)
  | some m =>
    rw [hm] at h
    simp only [Option.some.injEq] at h
    exact ⟨m, rfl, h.symm⟩

/-! ### What a render step can do to a component: the skeleton fields are
untouched, and existing data bindings are never changed or removed (injection
only adds absent keys, `addPartial` only touches the partial map). -/

structure ComponentStep (c c' : Component) : Prop where
  templates_eq : c'.templates = c.templates
  withChildren_eq : c'.withChildren = c.withChildren
  url_eq : c'.url = c.url
  functions_eq : c'.functions = c.functions
  fsys_eq : c'.fsys = c.fsys
  wrappedRenderer_eq : c'.wrappedRenderer = c.wrappedRenderer
  wrappedTarget_eq : c'.wrappedTarget = c.wrappedTarget
  td_mono : ∀ k v, tdLookup c k = some v → tdLookup c' k = some v
  gd_mono : ∀ k v, gdLookup c k = some v → gdLookup c' k = some v

def HeapStep (h h' : Heap) : Prop := ∀ i, ComponentStep (h i) (h' i)

theorem componentStep_refl (c : Component) : ComponentStep c c :=
  ⟨rfl, rfl, rfl, rfl, rfl, rfl, rfl, fun _ _ hv => hv, fun _ _ hv => hv⟩

theorem componentStep_comp {a b c : Component}
    (h1 : ComponentStep a b) (h2 : ComponentStep b c) : ComponentStep a c :=
  ⟨h2.templates_eq.trans h1.templates_eq,
   h2.withChildren_eq.trans h1.withChildren_eq,
   h2.url_eq.trans h1.url_eq,
   h2.functions_eq.trans h1.functions_eq,
   h2.fsys_eq.trans h1.fsys_eq,
   h2.wrappedRenderer_eq.trans h1.wrappedRenderer_eq,
   h2.wrappedTarget_eq.trans h1.wrappedTarget_eq,
   fun k v hv => h2.td_mono k v (h1.td_mono k v hv),
   fun k v hv => h2.gd_mono k v (h1.gd_mono k v hv)⟩

theorem heapStep_refl (h : Heap) : HeapStep h h := fun i => componentStep_refl (h i)

theorem heapStep_comp {h1 h2 h3 : Heap} (a : HeapStep h1 h2) (b : HeapStep h2 h3) :
    HeapStep h1 h3 := fun i => componentStep_comp (a i) (b i)

theorem updateH_self (h : Heap) (i : Cid) (c : Component) : updateH h i c i = c := by
  simp [updateH]

theorem updateH_other (h : Heap) (i j : Cid) (c : Component) (hne : j ≠ i) :
    updateH h i c j = h j := by
  simp [updateH, hne]

theorem heapStep_updateH (h : Heap) (i : Cid) (c : Component)
    (hc : ComponentStep (h i) c) : HeapStep h (updateH h i c) := by
  intro j
  by_cases hj : j = i
  · subst hj
    rw [updateH_self]
    exact hc
  · rw [updateH_other h i j c hj]
    exact componentStep_refl (h j)

theorem componentStep_injectData (c c' : Component) (input : Option DataMap)
    (h : c.injectData input = some c') : ComponentStep c c' := by
  have hs := injectData_shape c c' input h
  have hg : c'.globalData = c.globalData := by rw [hs]
  refine ⟨?_, ?_, ?_, ?_, ?_, ?_, ?_, ?_, ?_⟩
  · rw [hs]
  · rw [hs]
  · rw [hs]
  · rw [hs]
  · rw [hs]
  · rw [hs]
  · rw [hs]
  · intro k v hv
    rw [injectData_lookup c c' input k h, hv]
  · intro k v hv
    show odLookup c'.globalData k = some v
    rw [hg]
    exact hv

theorem componentStep_injectGlobalData (c : Component) (input : Option DataMap) :
    ComponentStep c (c.injectGlobalData input) := by
  refine ⟨rfl, rfl, rfl, rfl, rfl, rfl, rfl, fun k v hv => hv, ?_⟩
  intro k v hv
  rw [injectGlobalData_lookup c input k, hv]

theorem componentStep_addPartial (c c' : Component) (key : String) (v : Value)
    (h : c.addPartial key v = some c') : ComponentStep c c' := by
  obtain ⟨m, _, hc⟩ := addPartial_shape c c' key v h
  subst hc
  exact ⟨rfl, rfl, rfl, rfl, rfl, rfl, rfl, fun _ _ hv => hv, fun _ _ hv => hv⟩

theorem heapStep_injectDataH (h h' : Heap) (i : Cid) (input : Option DataMap)
    (hi : injectDataH h i input = some h') : HeapStep h h' := by
  unfold injectDataH at hi
  cases hc : (h i).injectData input with
  | none => rw [hc] at hi; exact absurd hi (by simp)
  | some c' =>
    rw [hc] at hi
    injection hi with hi2
    subst hi2
    exact heapStep_updateH h i c' (componentStep_injectData _ _ _ hc)

theorem heapStep_injectGlobalDataH (h : Heap) (i : Cid) (input : Option DataMap) :
    HeapStep h (injectGlobalDataH h i input) :=
  heapStep_updateH h i _ (componentStep_injectGlobalData _ _)

theorem heapStep_addPartialH (h h' : Heap) (i : Cid) (key : String) (v : Value)
    (hi : addPartialH h i key v = some h') : HeapStep h h' := by
  unfold addPartialH at hi
  cases hc : (h i).addPartial key v with
  | none => rw [hc] at hi; exact absurd hi (by simp)
  | some c' =>
    rw [hc] at hi
    injection hi with hi2
    subst hi2
    exact heapStep_updateH h i c' (componentStep_addPartial _ _ _ _ hc)

/-! ### Unfolding equations for the render functions -/

theorem renderChildren_nil (renderChild : GState → Heap → Cid → RenderResult)
    (gs : GState) (h : Heap) (p : Cid) :
    renderChildren renderChild gs h p [] = ⟨gs, h, none⟩ := rfl

theorem renderChildren_cons (renderChild : GState → Heap → Cid → RenderResult)
    (gs : GState) (h : Heap) (p : Cid) (key : String) (child : Cid)
    (rest : List (String × Cid)) :
    renderChildren renderChild gs h p ((key, child) :: rest) =
      match injectDataH h child ((h p).templateData) with
      | none => ⟨gs, h, some .nilMapWrite⟩
      | some h1 =>
        match renderChild gs (injectGlobalDataH h1 child ((h1 p).globalData)) child with
        | ⟨gs1, h3, _, some e⟩ => ⟨gs1, h3, some e⟩
        | ⟨gs1, h3, out, none⟩ =>
          match addPartialH h3 p key (Value.vHtml out) with
          | none => ⟨gs1, h3, some .nilMapWrite⟩
          | some h4 => renderChildren renderChild gs1 h4 p rest := rfl

theorem render_zero (eng : Engine) (gs : GState) (h : Heap) (ctx : List Cid) (c : Cid) :
    render eng 0 gs h ctx c = ⟨gs, h, "", some .outOfFuel⟩ := rfl

theorem render_succ (eng : Engine) (fuel : Nat) (gs : GState) (h : Heap)
    (ctx : List Cid) (c : Cid) :
    render eng (fuel + 1) gs h ctx c =
      if c ∈ ctx then ⟨gs, h, "", some .circularReference⟩
      else
        match renderChildren (fun gs1 h1 child => render eng fuel gs1 h1 (c :: ctx) child)
            gs h c ((h c).withChildren) with
        | ⟨gs1, h1, some e⟩ => ⟨gs1, h1, "", some e⟩
        | ⟨gs1, h1, none⟩ =>
          match (h1 c).templates with
          | [] => ⟨gs1, h1, "", some .noTemplates⟩
          | t :: ts =>
            let rn := renderNamed eng gs1 h1 (c :: ctx) c (baseName t) (t :: ts)
                ((h1 c).templateData)
            ⟨rn.1, h1, rn.2.1, rn.2.2⟩ := rfl

/-- Unfolding of `render` for a component not on the active chain whose
child loop failed: the loop's error is returned with empty HTML. -/
theorem render_childErr (eng : Engine) (fuel : Nat) (gs : GState) (h : Heap)
    (ctx : List Cid) (c : Cid) (gs1 : GState) (h1 : Heap) (e : RErr)
    (hmem : c ∉ ctx)
    (hres : renderChildren (fun a b d => render eng fuel a b (c :: ctx) d) gs h c
        ((h c).withChildren) = ⟨gs1, h1, some e⟩) :
    render eng (fuel + 1) gs h ctx c = ⟨gs1, h1, "", some e⟩ := by
  rw [render_succ]
  simp only [hmem, if_neg, not_false_iff]
  rw [hres]

/-- Unfolding of `render` for a component not on the active chain whose
child loop succeeded: the templates check and `renderNamed` follow. -/
theorem render_childrenOk (eng : Engine) (fuel : Nat) (gs : GState) (h : Heap)
    (ctx : List Cid) (c : Cid) (gs1 : GState) (h1 : Heap)
    (hmem : c ∉ ctx)
    (hres : renderChildren (fun a b d => render eng fuel a b (c :: ctx) d) gs h c
        ((h c).withChildren) = ⟨gs1, h1, none⟩) :
    render eng (fuel + 1) gs h ctx c =
      match (h1 c).templates with
      | [] => ⟨gs1, h1, "", some .noTemplates⟩
      | t :: ts =>
        let rn := renderNamed eng gs1 h1 (c :: ctx) c (baseName t) (t :: ts)
            ((h1 c).templateData)
        ⟨rn.1, h1, rn.2.1, rn.2.2⟩ := by
  rw [render_succ]
  simp only [hmem, if_neg, not_false_iff]
  rw [hres]

/-! ### The render loop and render only step the heap -/

theorem renderChildren_heapStep (renderChild : GState → Heap → Cid → RenderResult)
    (hrc : ∀ gs h c, HeapStep h (renderChild gs h c).heap) :
    ∀ (l : List (String × Cid)) (gs : GState) (h : Heap) (p : Cid),
      HeapStep h (renderChildren renderChild gs h p l).heap := by
  intro l
  induction l with
  | nil => intro gs h p; exact heapStep_refl h
  | cons kv rest ih =>
    intro gs h p
    obtain ⟨key, child⟩ := kv
    rw [renderChildren_cons]
    cases hinj : injectDataH h child ((h p).templateData) with
    | none => exact heapStep_refl h
    | some h1 =>
      have s1 : HeapStep h h1 := heapStep_injectDataH h h1 child _ hinj
      have s2 : HeapStep h1 (injectGlobalDataH h1 child ((h1 p).globalData)) :=
        heapStep_injectGlobalDataH h1 child _
      rcases hr : renderChild gs (injectGlobalDataH h1 child ((h1 p).globalData)) child with
        ⟨gs1, h3, out, oe⟩
      have s3 : HeapStep (injectGlobalDataH h1 child ((h1 p).globalData)) h3 := by
        have := hrc gs (injectGlobalDataH h1 child ((h1 p).globalData)) child
        rw [hr] at this
        exact this
      have s13 : HeapStep h h3 := heapStep_comp (heapStep_comp s1 s2) s3
      cases oe with
      | some e => simp only [hr]; exact s13
      | none =>
        simp only [hr]
        cases hap : addPartialH h3 p key (Value.vHtml out) with
        | none => exact s13
        | some h4 =>
          have s4 : HeapStep h3 h4 := heapStep_addPartialH h3 h4 p _ _ hap
          exact heapStep_comp (heapStep_comp s13 s4) (ih gs1 h4 p)

theorem render_heapStep (eng : Engine) :
    ∀ (fuel : Nat) (gs : GState) (h : Heap) (ctx : List Cid) (c : Cid),
      HeapStep h (render eng fuel gs h ctx c).heap := by
  intro fuel
  induction fuel with
  | zero => intro gs h ctx c; exact heapStep_refl h
  | succ fuel ih =>
    intro gs h ctx c
    rw [render_succ]
    by_cases hmem : c ∈ ctx
    · simp only [hmem, if_pos]
      exact heapStep_refl h
    · simp only [hmem, if_neg, not_false_iff]
      have hloop := renderChildren_heapStep
        (fun gs1 h1 child => render eng fuel gs1 h1 (c :: ctx) child)
        (fun gs1 h1 child => ih gs1 h1 (c :: ctx) child)
        ((h c).withChildren) gs h c
      rcases hres : renderChildren (fun gs1 h1 child => render eng fuel gs1 h1 (c :: ctx) child)
          gs h c ((h c).withChildren) with ⟨gs1, h1, oe⟩
      rw [hres] at hloop
      cases oe with
      | some e => simp only [hres]; exact hloop
      | none =>
        simp only [hres]
        cases hts : (h1 c).templates with
        | nil => exact hloop
        | cons t ts => exact hloop

/-! ### The partial map of a component on the active chain is frozen:
only a component's own child loop writes its partial map, and a component
already on the chain can never be rendered again without a circular error. -/

theorem injectDataH_partials (h h' : Heap) (i : Cid) (input : Option DataMap)
    (hi : injectDataH h i input = some h') :
    ∀ j, (h' j).partialResults = (h j).partialResults := by
  intro j
  unfold injectDataH at hi
  cases hc : (h i).injectData input with
  | none => rw [hc] at hi; exact absurd hi (by simp)
  | some c' =>
    rw [hc] at hi
    injection hi with hi2
    subst hi2
    by_cases hj : j = i
    · subst hj
      rw [updateH_self, injectData_shape _ _ _ hc]
    · rw [updateH_other _ _ _ _ hj]

theorem injectGlobalDataH_partials (h : Heap) (i : Cid) (input : Option DataMap) :
    ∀ j, ((injectGlobalDataH h i input) j).partialResults = (h j).partialResults := by
  intro j
  by_cases hj : j = i
  · subst hj
    rw [injectGlobalDataH, updateH_self]
    rfl
  · rw [injectGlobalDataH, updateH_other _ _ _ _ hj]

theorem addPartialH_partials_other (h h' : Heap) (i j : Cid) (key : String) (v : Value)
    (hi : addPartialH h i key v = some h') (hj : j ≠ i) :
    (h' j).partialResults = (h j).partialResults := by
  unfold addPartialH at hi
  cases hc : (h i).addPartial key v with
  | none => rw [hc] at hi; exact absurd hi (by simp)
  | some c' =>
    rw [hc] at hi
    injection hi with hi2
    subst hi2
    rw [updateH_other _ _ _ _ hj]

theorem renderChildren_partials_frozen (renderChild : GState → Heap → Cid → RenderResult)
    (p q : Cid) (hqp : q ≠ p)
    (hrc : ∀ gs h c, ((renderChild gs h c).heap q).partialResults = (h q).partialResults) :
    ∀ (l : List (String × Cid)) (gs : GState) (h : Heap),
      ((renderChildren renderChild gs h p l).heap q).partialResults = (h q).partialResults := by
  intro l
  induction l with
  | nil => intro gs h; rfl
  | cons kv rest ih =>
    intro gs h
    obtain ⟨key, child⟩ := kv
    rw [renderChildren_cons]
    cases hinj : injectDataH h child ((h p).templateData) with
    | none => rfl
    | some h1 =>
      have e1 : (h1 q).partialResults = (h q).partialResults :=
        injectDataH_partials h h1 child _ hinj q
      have e2 : ((injectGlobalDataH h1 child ((h1 p).globalData)) q).partialResults
          = (h1 q).partialResults := injectGlobalDataH_partials h1 child _ q
      rcases hr : renderChild gs (injectGlobalDataH h1 child ((h1 p).globalData)) child with
        ⟨gs1, h3, out, oe⟩
      have e3 : (h3 q).partialResults
          = ((injectGlobalDataH h1 child ((h1 p).globalData)) q).partialResults := by
        have := hrc gs (injectGlobalDataH h1 child ((h1 p).globalData)) child
        rw [hr] at this
        exact this
      cases oe with
      | some e =>
        simp only [hr]
        rw [e3, e2, e1]
      | none =>
        simp only [hr]
        cases hap : addPartialH h3 p key (Value.vHtml out) with
        | none => rw [e3, e2, e1]
        | some h4 =>
          have e4 : (h4 q).partialResults = (h3 q).partialResults :=
            addPartialH_partials_other h3 h4 p q _ _ hap hqp
          rw [ih gs1 h4, e4, e3, e2, e1]

theorem render_partials_frozen (eng : Engine) :
    ∀ (fuel : Nat) (gs : GState) (h : Heap) (ctx : List Cid) (c q : Cid), q ∈ ctx →
      ((render eng fuel gs h ctx c).heap q).partialResults = (h q).partialResults := by
  intro fuel
  induction fuel with
  | zero => intro gs h ctx c q _; rfl
  | succ fuel ih =>
    intro gs h ctx c q hq
    rw [render_succ]
    by_cases hmem : c ∈ ctx
    · simp only [hmem, if_pos]
    · simp only [hmem, if_neg, not_false_iff]
      have hqc : q ≠ c := fun he => hmem (he ▸ hq)
      have hloop := renderChildren_partials_frozen
        (fun gs1 h1 child => render eng fuel gs1 h1 (c :: ctx) child) c q hqc
        (fun gs1 h1 child => ih gs1 h1 (c :: ctx) child q (List.mem_cons_of_mem c hq))
        ((h c).withChildren) gs h
      rcases hres : renderChildren (fun gs1 h1 child => render eng fuel gs1 h1 (c :: ctx) child)
          gs h c ((h c).withChildren) with ⟨gs1, h1, oe⟩
      rw [hres] at hloop
      cases oe with
      | some e => simp only [hres]; exact hloop
      | none =>
        simp only [hres]
        cases hts : (h1 c).templates with
        | nil => exact hloop
        | cons t ts => exact hloop

/-! ### renderNamed returns no markup alongside an error -/

theorem renderNamed_blank (eng : Engine) (gs : GState) (h : Heap) (ctx : List Cid)
    (c : Cid) (name : String) (ts : List String) (input : Option DataMap) :
    (renderNamed eng gs h ctx c name ts input).2.2 = none ∨
    (renderNamed eng gs h ctx c name ts input).2.1 = "" := by
  unfold renderNamed
  by_cases hts : ts = []
  · simp [hts]
  · simp only [hts, if_neg, not_false_iff]
    split
    · exact Or.inr rfl
    · split
      · exact Or.inr rfl
      · exact Or.inl rfl

/-! ### More concrete fixtures -/

/-- A freshly constructed component with no templates. -/
def compDefault : Component := NewComponent []

/-- Parent `0` sharing the single leaf child `1` across two slots. -/
def hDiamond : Heap := fun i =>
  if i = 0 then { compDefault with withChildren := [("a", 1), ("b", 1)], templates := ["p.html"] }
  else { compDefault with templates := ["c.html"] }

/-- Component `0` registered as its own partial. -/
def hCyc : Heap := fun i =>
  if i = 0 then { compDefault with withChildren := [("a", 0)], templates := ["t"] }
  else compDefault

/-- Components `0` and `1` wrapping each other (`0 → 1 → 0`). -/
def hCyc2 : Heap := fun i =>
  if i = 0 then { compDefault with withChildren := [("a", 1)], templates := ["t"] }
  else { compDefault with withChildren := [("b", 0)], templates := ["u"] }

/-- A heap of fresh, child-free, template-free components. -/
def hEmpty : Heap := fun _ => compDefault

/-! ### C7 -/

/-- C7: `Render` has no partial-success mode: whenever it reports an error —
circular reference, a failed child, the empty-template check, compilation or
execution — the returned HTML value is the empty string; the first error
encountered is returned and aborts the whole call. -/
theorem C7_no_partial_success (eng : Engine) (fuel : Nat) (gs : GState) (h : Heap)
    (ctx : List Cid) (c : Cid) (e : RErr)
    (herr : (render eng fuel gs h ctx c).err = some e) :
    (render eng fuel gs h ctx c).html = "" := by
  cases fuel with
  | zero => rfl
  | succ fuel =>
    by_cases hmem : c ∈ ctx
    · rw [render_succ] at herr ⊢
      simp only [hmem, if_pos]
    · rcases hres : renderChildren (fun a b d => render eng fuel a b (c :: ctx) d)
          gs h c ((h c).withChildren) with ⟨gs1, h1, oe⟩
      cases oe with
      | some e2 =>
        rw [render_childErr eng fuel gs h ctx c gs1 h1 e2 hmem hres]
      | none =>
        rw [render_childrenOk eng fuel gs h ctx c gs1 h1 hmem hres] at herr ⊢
        cases hts : (h1 c).templates with
        | nil => rfl
        | cons t ts =>
          rw [hts] at herr
          have herr' : (renderNamed eng gs1 h1 (c :: ctx) c (baseName t) (t :: ts)
              ((h1 c).templateData)).2.2 = some e := herr
          show (renderNamed eng gs1 h1 (c :: ctx) c (baseName t) (t :: ts)
              ((h1 c).templateData)).2.1 = ""
          rcases renderNamed_blank eng gs1 h1 (c :: ctx) c (baseName t) (t :: ts)
              ((h1 c).templateData) with hn | hb
          · rw [hn] at herr'
            cases herr'
          · exact hb

/-- Witness for C7 at a concrete failing render: a fresh component with no
templates errors and yields empty HTML. -/
theorem C7_no_partial_success_witness :
    (render okEngine 1 gs0 hEmpty [] 0).html = "" :=
  C7_no_partial_success okEngine 1 gs0 hEmpty [] 0 .noTemplates rfl

/-! ### C6 -/

/-- C6: on a component with an empty template identifier set that is not
already on the active chain and whose registered children (if any) all
render successfully, `Render` returns the no-templates error and an empty
HTML string. -/
theorem C6_no_templates_error (eng : Engine) (fuel : Nat) (gs gs1 : GState) (h h1 : Heap)
    (ctx : List Cid) (c : Cid)
    (hmem : c ∉ ctx)
    (hchildren : renderChildren (fun a b d => render eng fuel a b (c :: ctx) d) gs h c
        ((h c).withChildren) = ⟨gs1, h1, none⟩)
    (hts : (h c).templates = []) :
    render eng (fuel + 1) gs h ctx c = ⟨gs1, h1, "", some .noTemplates⟩ := by
  have h1ts : (h1 c).templates = (h c).templates := by
    have hstep := renderChildren_heapStep (fun a b d => render eng fuel a b (c :: ctx) d)
      (fun a b d => render_heapStep eng fuel a b (c :: ctx) d) ((h c).withChildren) gs h c
    rw [hchildren] at hstep
    exact (hstep c).templates_eq
  rw [render_childrenOk eng fuel gs h ctx c gs1 h1 hmem hchildren, h1ts, hts]

/-- Witness for C6: a fresh child-free component with no templates, rendered
on the empty chain, returns exactly the no-templates error. -/
theorem C6_no_templates_error_witness :
    render okEngine 1 gs0 hEmpty [] 0 = ⟨gs0, hEmpty, "", some .noTemplates⟩ :=
  C6_no_templates_error okEngine 0 gs0 gs0 hEmpty hEmpty [] 0 (by decide) rfl rfl

/-! ### C1: circular references -/

/-- A component already marked on the active chain is rejected immediately. -/
theorem render_mem (eng : Engine) (fuel : Nat) (gs : GState) (h : Heap)
    (ctx : List Cid) (c : Cid) (hmem : c ∈ ctx) :
    render eng (fuel + 1) gs h ctx c = ⟨gs, h, "", some .circularReference⟩ := by
  rw [render_succ]
  simp [hmem]

/-- A component registered as its own first partial renders to the
circular-reference error with no markup. -/
theorem circular_direct (eng : Engine) (f : Nat) (gs : GState) (h : Heap)
    (ctx : List Cid) (A : Cid) (s : String) (rest : List (String × Cid))
    (hw : (h A).withChildren = (s, A) :: rest) :
    (render eng (f + 2) gs h ctx A).html = "" ∧
    (render eng (f + 2) gs h ctx A).err = some .circularReference := by
  have e2 : f + 2 = (f + 1) + 1 := rfl
  by_cases hmem : A ∈ ctx
  · rw [e2, render_mem eng (f + 1) gs h ctx A hmem]
    exact ⟨rfl, rfl⟩
  · obtain ⟨h1, hinj⟩ : ∃ h1, injectDataH h A ((h A).templateData) = some h1 := by
      unfold injectDataH
      obtain ⟨c', hc⟩ := injectData_self_some (h A)
      rw [hc]
      exact ⟨_, rfl⟩
    have hrA : render eng (f + 1) gs (injectGlobalDataH h1 A ((h1 A).globalData)) (A :: ctx) A
        = ⟨gs, injectGlobalDataH h1 A ((h1 A).globalData), "", some .circularReference⟩ :=
      render_mem eng f gs _ (A :: ctx) A (List.mem_cons_self A ctx)
    have hloop : renderChildren (fun a b d => render eng (f + 1) a b (A :: ctx) d) gs h A
        ((h A).withChildren)
        = ⟨gs, injectGlobalDataH h1 A ((h1 A).globalData), some .circularReference⟩ := by
      rw [hw, renderChildren_cons]
      simp only [hinj]
      simp only [hrA]
    rw [e2, render_childErr eng (f + 1) gs h ctx A gs _ .circularReference hmem hloop]
    exact ⟨rfl, rfl⟩

/-- Components wrapping each other (`A → B → A` through the partial maps,
with both local-data maps non-nil so the injections cannot panic) render to
the circular-reference error with no markup. -/
theorem circular_transitive (eng : Engine) (f : Nat) (gs : GState) (h : Heap)
    (ctx : List Cid) (A B : Cid) (s t : String) (restA restB : List (String × Cid))
    (da db : DataMap)
    (hwA : (h A).withChildren = (s, B) :: restA)
    (hwB : (h B).withChildren = (t, A) :: restB)
    (htdA : (h A).templateData = some da)
    (htdB : (h B).templateData = some db) :
    (render eng (f + 3) gs h ctx A).html = "" ∧
    (render eng (f + 3) gs h ctx A).err = some .circularReference := by
  have e3 : f + 3 = (f + 2) + 1 := rfl
  by_cases hmemA : A ∈ ctx
  · rw [e3, render_mem eng (f + 2) gs h ctx A hmemA]
    exact ⟨rfl, rfl⟩
  · obtain ⟨cB, hcB⟩ := injectData_some_of_some (h B) db ((h A).templateData) htdB
    have hinjB : injectDataH h B ((h A).templateData) = some (updateH h B cB) := by
      unfold injectDataH
      rw [hcB]
    by_cases hmemB : B ∈ A :: ctx
    · have hrB : render eng (f + 2) gs
          (injectGlobalDataH (updateH h B cB) B (((updateH h B cB) A).globalData)) (A :: ctx) B
          = ⟨gs, injectGlobalDataH (updateH h B cB) B (((updateH h B cB) A).globalData),
              "", some .circularReference⟩ :=
        render_mem eng (f + 1) gs _ (A :: ctx) B hmemB
      have hloop : renderChildren (fun a b d => render eng (f + 2) a b (A :: ctx) d) gs h A
          ((h A).withChildren)
          = ⟨gs, injectGlobalDataH (updateH h B cB) B (((updateH h B cB) A).globalData),
              some .circularReference⟩ := by
        rw [hwA, renderChildren_cons]
        simp only [hinjB]
        simp only [hrB]
      rw [e3, render_childErr eng (f + 2) gs h ctx A gs _ .circularReference hmemA hloop]
      exact ⟨rfl, rfl⟩
    · have hBA : B ≠ A := fun he => hmemB (by rw [he]; exact List.mem_cons_self A ctx)
      have hAB : A ≠ B := Ne.symm hBA
      have hA2 : (injectGlobalDataH (updateH h B cB) B (((updateH h B cB) A).globalData)) A
          = h A := by
        rw [injectGlobalDataH, updateH_other _ _ _ _ hAB, updateH_other _ _ _ _ hAB]
      have hs1 : HeapStep h (updateH h B cB) :=
        heapStep_updateH h B cB (componentStep_injectData _ _ _ hcB)
      have hs2 : HeapStep (updateH h B cB)
          (injectGlobalDataH (updateH h B cB) B (((updateH h B cB) A).globalData)) :=
        heapStep_injectGlobalDataH (updateH h B cB) B (((updateH h B cB) A).globalData)
      have hwB2 : ((injectGlobalDataH (updateH h B cB) B (((updateH h B cB) A).globalData)) B).withChildren
          = (t, A) :: restB :=
        ((hs2 B).withChildren_eq.trans (hs1 B).withChildren_eq).trans hwB
      have htdA2 : ((injectGlobalDataH (updateH h B cB) B (((updateH h B cB) A).globalData)) A).templateData
          = some da := by
        rw [hA2, htdA]
      obtain ⟨cA, hcA⟩ := injectData_some_of_some _ da
        (((injectGlobalDataH (updateH h B cB) B (((updateH h B cB) A).globalData)) B).templateData)
        htdA2
      have hinjA : injectDataH
          (injectGlobalDataH (updateH h B cB) B (((updateH h B cB) A).globalData)) A
          (((injectGlobalDataH (updateH h B cB) B (((updateH h B cB) A).globalData)) B).templateData)
          = some (updateH (injectGlobalDataH (updateH h B cB) B (((updateH h B cB) A).globalData)) A cA) := by
        unfold injectDataH
        rw [hcA]
      have hrA : render eng (f + 1) gs
          (injectGlobalDataH
            (updateH (injectGlobalDataH (updateH h B cB) B (((updateH h B cB) A).globalData)) A cA) A
            (((updateH (injectGlobalDataH (updateH h B cB) B (((updateH h B cB) A).globalData)) A cA) B).globalData))
          (B :: A :: ctx) A
          = ⟨gs, injectGlobalDataH
              (updateH (injectGlobalDataH (updateH h B cB) B (((updateH h B cB) A).globalData)) A cA) A
              (((updateH (injectGlobalDataH (updateH h B cB) B (((updateH h B cB) A).globalData)) A cA) B).globalData),
              "", some .circularReference⟩ :=
        render_mem eng f gs _ (B :: A :: ctx) A
          (List.mem_cons_of_mem B (List.mem_cons_self A ctx))
      have hloopB : renderChildren (fun a b d => render eng (f + 1) a b (B :: A :: ctx) d) gs
          (injectGlobalDataH (updateH h B cB) B (((updateH h B cB) A).globalData)) B
          (((injectGlobalDataH (updateH h B cB) B (((updateH h B cB) A).globalData)) B).withChildren)
          = ⟨gs, injectGlobalDataH
              (updateH (injectGlobalDataH (updateH h B cB) B (((updateH h B cB) A).globalData)) A cA) A
              (((updateH (injectGlobalDataH (updateH h B cB) B (((updateH h B cB) A).globalData)) A cA) B).globalData),
              some .circularReference⟩ := by
        rw [hwB2, renderChildren_cons]
        simp only [hinjA]
        simp only [hrA]
      have hrB : render eng (f + 2) gs
          (injectGlobalDataH (updateH h B cB) B (((updateH h B cB) A).globalData)) (A :: ctx) B
          = ⟨gs, injectGlobalDataH
              (updateH (injectGlobalDataH (updateH h B cB) B (((updateH h B cB) A).globalData)) A cA) A
              (((updateH (injectGlobalDataH (updateH h B cB) B (((updateH h B cB) A).globalData)) A cA) B).globalData),
              "", some .circularReference⟩ := by
        have e2 : f + 2 = (f + 1) + 1 := rfl
        rw [e2]
        exact render_childErr eng (f + 1) gs _ (A :: ctx) B gs _ .circularReference hmemB hloopB
      have hloopA : renderChildren (fun a b d => render eng (f + 2) a b (A :: ctx) d) gs h A
          ((h A).withChildren)
          = ⟨gs, injectGlobalDataH
              (updateH (injectGlobalDataH (updateH h B cB) B (((updateH h B cB) A).globalData)) A cA) A
              (((updateH (injectGlobalDataH (updateH h B cB) B (((updateH h B cB) A).globalData)) A cA) B).globalData),
              some .circularReference⟩ := by
        rw [hwA, renderChildren_cons]
        simp only [hinjB]
        simp only [hrB]
      rw [e3, render_childErr eng (f + 2) gs h ctx A gs _ .circularReference hmemA hloopA]
      exact ⟨rfl, rfl⟩

set_option maxRecDepth 100000 in
/-- C1: a component appearing in its own active render call chain — directly
(registered as its own partial) or transitively (A wraps B and B wraps A) —
renders to the circular-reference error and an empty HTML string; and because
the marking lives in the derived context rather than in component state, it is
scoped to the call chain: sharing one child across two slots of the same
parent still succeeds. -/
theorem C1_circular_reference :
    (∀ (eng : Engine) (f : Nat) (gs : GState) (h : Heap) (ctx : List Cid) (A : Cid)
        (s : String) (rest : List (String × Cid)),
      (h A).withChildren = (s, A) :: rest →
      (render eng (f + 2) gs h ctx A).html = "" ∧
      (render eng (f + 2) gs h ctx A).err = some .circularReference) ∧
    (∀ (eng : Engine) (f : Nat) (gs : GState) (h : Heap) (ctx : List Cid) (A B : Cid)
        (s t : String) (restA restB : List (String × Cid)) (da db : DataMap),
      (h A).withChildren = (s, B) :: restA →
      (h B).withChildren = (t, A) :: restB →
      (h A).templateData = some da →
      (h B).templateData = some db →
      (render eng (f + 3) gs h ctx A).html = "" ∧
      (render eng (f + 3) gs h ctx A).err = some .circularReference) ∧
    ((render okEngine 3 gs0 hDiamond [] 0).err = none ∧
     (render okEngine 3 gs0 hDiamond [] 0).html = "X") :=
  ⟨fun eng f gs h ctx A s rest hw => circular_direct eng f gs h ctx A s rest hw,
   fun eng f gs h ctx A B s t restA restB da db hwA hwB htdA htdB =>
     circular_transitive eng f gs h ctx A B s t restA restB da db hwA hwB htdA htdB,
   by decide, by decide⟩

/-- Witness for C1 at concrete cyclic heaps: the self-referential component
`hCyc` and the mutually wrapping pair `hCyc2` both fail with the
circular-reference error and empty markup. -/
theorem C1_circular_reference_witness :
    ((render okEngine 2 gs0 hCyc [] 0).html = "" ∧
     (render okEngine 2 gs0 hCyc [] 0).err = some .circularReference) ∧
    ((render okEngine 3 gs0 hCyc2 [] 0).html = "" ∧
     (render okEngine 3 gs0 hCyc2 [] 0).err = some .circularReference) :=
  ⟨C1_circular_reference.1 okEngine 0 gs0 hCyc [] 0 "a" [] rfl,
   C1_circular_reference.2.1 okEngine 0 gs0 hCyc2 [] 0 1 "a" "b" [] [] [] [] rfl rfl rfl rfl⟩

/-! ### C3: child output is stored under its slot name for the parent -/

/-- Successful `addPartial` on the heap: the map was non-nil and the slot is
updated with the child's output. -/
theorem addPartialH_self_lookup (h h' : Heap) (i : Cid) (key : String) (v : Value)
    (hap : addPartialH h i key v = some h') :
    ∃ pm, (h i).partialResults = some pm ∧
      (h' i).partialResults = some (updateAssoc pm key v) := by
  unfold addPartialH at hap
  cases hc : (h i).addPartial key v with
  | none => rw [hc] at hap; exact absurd hap (by simp)
  | some c' =>
    rw [hc] at hap
    injection hap with hap2
    subst hap2
    obtain ⟨m, hm, hc'⟩ := addPartial_shape _ _ _ _ hc
    refine ⟨m, hm, ?_⟩
    rw [updateH_self, hc']

/-- Running the child loop over slots that do not mention `s` leaves the
parent's entry at `s` unchanged (given that recursive child renders cannot
touch the parent's partial map). -/
theorem renderChildren_partial_stable (renderChild : GState → Heap → Cid → RenderResult)
    (p : Cid) (s : String)
    (hrc : ∀ gs h c, ((renderChild gs h c).heap p).partialResults = (h p).partialResults) :
    ∀ (l : List (String × Cid)) (gs : GState) (h : Heap) (gs' : GState) (h' : Heap)
      (pm : List (String × Value)),
      renderChildren renderChild gs h p l = ⟨gs', h', none⟩ →
      (h p).partialResults = some pm →
      s ∉ l.map Prod.fst →
      ∃ pm', (h' p).partialResults = some pm' ∧ lookupStr pm' s = lookupStr pm s := by
  intro l
  induction l with
  | nil =>
    intro gs h gs' h' pm hres hpm _
    rw [renderChildren_nil] at hres
    simp only [LoopResult.mk.injEq] at hres
    obtain ⟨-, rfl, -⟩ := hres
    exact ⟨pm, hpm, rfl⟩
  | cons kv rest ih =>
    intro gs h gs' h' pm hres hpm hns
    obtain ⟨key, child⟩ := kv
    simp only [List.map_cons, List.mem_cons, not_or] at hns
    obtain ⟨hks, hrest⟩ := hns
    rw [renderChildren_cons] at hres
    cases hinj : injectDataH h child ((h p).templateData) with
    | none =>
      simp only [hinj] at hres
      exact absurd hres (by simp)
    | some h1 =>
      simp only [hinj] at hres
      rcases hr : renderChild gs (injectGlobalDataH h1 child ((h1 p).globalData)) child with
        ⟨gs1, h3, out, oe⟩
      rw [hr] at hres
      cases oe with
      | some e =>
        have hres' : (⟨gs1, h3, some e⟩ : LoopResult) = ⟨gs', h', none⟩ := hres
        exact absurd hres' (by simp)
      | none =>
        have hres' : (match addPartialH h3 p key (Value.vHtml out) with
            | none => (⟨gs1, h3, some .nilMapWrite⟩ : LoopResult)
            | some h4 => renderChildren renderChild gs1 h4 p rest) = ⟨gs', h', none⟩ := hres
        cases hap : addPartialH h3 p key (Value.vHtml out) with
        | none =>
          rw [hap] at hres'
          exact absurd hres' (by simp)
        | some h4 =>
          rw [hap] at hres'
          have e1 : (h1 p).partialResults = some pm :=
            (injectDataH_partials h h1 child _ hinj p).trans hpm
          have e2 : ((injectGlobalDataH h1 child ((h1 p).globalData)) p).partialResults
              = some pm := (injectGlobalDataH_partials h1 child _ p).trans e1
          have e3 : (h3 p).partialResults = some pm := by
            have hstep := hrc gs (injectGlobalDataH h1 child ((h1 p).globalData)) child
            rw [hr] at hstep
            exact hstep.trans e2
          obtain ⟨pm3, hpm3, hpm4⟩ := addPartialH_self_lookup h3 h4 p key _ hap
          rw [e3] at hpm3
          injection hpm3 with hpm3'
          subst hpm3'
          obtain ⟨pm', hpm', hl'⟩ := ih gs1 h4 gs' h' (updateAssoc pm key (Value.vHtml out))
            hres' hpm4 hrest
          refine ⟨pm', hpm', ?_⟩
          have hks' : ¬ key = s := fun hh => hks hh.symm
          rw [hl', lookupStr_updateAssoc, if_neg hks']

/-- Every slot of a successfully completed child loop ends up in the parent's
partial map holding the HTML that its child rendered to during the loop. -/
theorem renderChildren_partial_of_mem (renderChild : GState → Heap → Cid → RenderResult)
    (p : Cid)
    (hrc : ∀ gs h c, ((renderChild gs h c).heap p).partialResults = (h p).partialResults) :
    ∀ (l : List (String × Cid)) (gs : GState) (h : Heap) (gs' : GState) (h' : Heap)
      (s : String) (C : Cid),
      renderChildren renderChild gs h p l = ⟨gs', h', none⟩ →
      (l.map Prod.fst).Nodup →
      (s, C) ∈ l →
      ∃ pm out, (h' p).partialResults = some pm ∧
        lookupStr pm s = some (.vHtml out) ∧
        ∃ g0 h0, (renderChild g0 h0 C).html = out ∧ (renderChild g0 h0 C).err = none := by
  intro l
  induction l with
  | nil =>
    intro gs h gs' h' s C _ _ hmem
    cases hmem
  | cons kv rest ih =>
    intro gs h gs' h' s C hres hnd hmem
    obtain ⟨key, child⟩ := kv
    simp only [List.map_cons, List.nodup_cons] at hnd
    obtain ⟨hkey_notin, hnd'⟩ := hnd
    rw [renderChildren_cons] at hres
    cases hinj : injectDataH h child ((h p).templateData) with
    | none =>
      simp only [hinj] at hres
      exact absurd hres (by simp)
    | some h1 =>
      simp only [hinj] at hres
      rcases hr : renderChild gs (injectGlobalDataH h1 child ((h1 p).globalData)) child with
        ⟨gs1, h3, out, oe⟩
      rw [hr] at hres
      cases oe with
      | some e =>
        have hres' : (⟨gs1, h3, some e⟩ : LoopResult) = ⟨gs', h', none⟩ := hres
        exact absurd hres' (by simp)
      | none =>
        have hres' : (match addPartialH h3 p key (Value.vHtml out) with
            | none => (⟨gs1, h3, some .nilMapWrite⟩ : LoopResult)
            | some h4 => renderChildren renderChild gs1 h4 p rest) = ⟨gs', h', none⟩ := hres
        cases hap : addPartialH h3 p key (Value.vHtml out) with
        | none =>
          rw [hap] at hres'
          exact absurd hres' (by simp)
        | some h4 =>
          rw [hap] at hres'
          rcases List.mem_cons.mp hmem with hhead | htail
          · injection hhead with hs hC
            subst hs
            subst hC
            obtain ⟨pm3, hpm3, hpm4⟩ := addPartialH_self_lookup h3 h4 p s _ hap
            obtain ⟨pm', hpm', hl'⟩ := renderChildren_partial_stable renderChild p s hrc
              rest gs1 h4 gs' h' (updateAssoc pm3 s (Value.vHtml out)) hres' hpm4 hkey_notin
            refine ⟨pm', out, hpm', ?_, ?_⟩
            · rw [hl', lookupStr_updateAssoc]
              simp
            · exact ⟨gs, injectGlobalDataH h1 C ((h1 p).globalData), by rw [hr], by rw [hr]⟩
          · exact ih gs1 h4 gs' h' s C hres' hnd' htail

/-- C3: for a parent `P` with child `C` registered under slot `s` (slot names
distinct, as they are in a Go map), a successful `P.Render` rendered `C`
first (on the extended chain, during the loop) and the data envelope passed
to P's template execution carries C's rendered output in the partial-results
map under key `s`. -/
theorem C3_child_output_in_envelope (eng : Engine) (fuel : Nat) (gs : GState)
    (h : Heap) (ctx : List Cid) (P : Cid) (s : String) (C : Cid)
    (hnd : (((h P).withChildren).map Prod.fst).Nodup)
    (hmem : (s, C) ∈ (h P).withChildren)
    (hok : (render eng (fuel + 1) gs h ctx P).err = none) :
    ∃ pm out,
      ((render eng (fuel + 1) gs h ctx P).heap P).partialResults = some pm ∧
      lookupStr pm s = some (.vHtml out) ∧
      (envelopeFor ((render eng (fuel + 1) gs h ctx P).heap) (P :: ctx) P
          (((render eng (fuel + 1) gs h ctx P).heap P).templateData)).Partials = some pm ∧
      ∃ g0 h0, (render eng fuel g0 h0 (P :: ctx) C).html = out ∧
               (render eng fuel g0 h0 (P :: ctx) C).err = none := by
  by_cases hmemP : P ∈ ctx
  · rw [render_mem eng fuel gs h ctx P hmemP] at hok
    cases hok
  · rcases hres : renderChildren (fun a b d => render eng fuel a b (P :: ctx) d) gs h P
        ((h P).withChildren) with ⟨gs1, h1, oe⟩
    cases oe with
    | some e =>
      rw [render_childErr eng fuel gs h ctx P gs1 h1 e hmemP hres] at hok
      cases hok
    | none =>
      have heq := render_childrenOk eng fuel gs h ctx P gs1 h1 hmemP hres
      have hheap : (render eng (fuel + 1) gs h ctx P).heap = h1 := by
        rw [heq]
        cases hts : (h1 P).templates with
        | nil => rfl
        | cons t ts => rfl
      have hfrozen : ∀ a b d,
          ((render eng fuel a b (P :: ctx) d).heap P).partialResults = (b P).partialResults :=
        fun a b d => render_partials_frozen eng fuel a b (P :: ctx) d P (List.mem_cons_self P ctx)
      obtain ⟨pm, out, hpm, hlook, hchild⟩ := renderChildren_partial_of_mem
        (fun a b d => render eng fuel a b (P :: ctx) d) P hfrozen
        ((h P).withChildren) gs h gs1 h1 s C hres hnd hmem
      refine ⟨pm, out, ?_, hlook, ?_, hchild⟩
      · rw [hheap]
        exact hpm
      · show ((render eng (fuel + 1) gs h ctx P).heap P).partialResults = some pm
        rw [hheap]
        exact hpm

/-- Parent `0` holding leaf child `1` under slot `"nav"`. -/
def hNav : Heap := fun i =>
  if i = 0 then { compDefault with withChildren := [("nav", 1)], templates := ["p.html"] }
  else { compDefault with templates := ["nav.html"] }

set_option maxRecDepth 100000 in
/-- Witness for C3 on the concrete `"nav"` heap with the always-`"X"` engine. -/
theorem C3_child_output_in_envelope_witness :
    ∃ pm out,
      ((render okEngine 2 gs0 hNav [] 0).heap 0).partialResults = some pm ∧
      lookupStr pm "nav" = some (.vHtml out) ∧
      (envelopeFor ((render okEngine 2 gs0 hNav [] 0).heap) (0 :: []) 0
          (((render okEngine 2 gs0 hNav [] 0).heap 0).templateData)).Partials = some pm ∧
      ∃ g0 h0, (render okEngine 1 g0 h0 (0 :: []) 1).html = out ∧
               (render okEngine 1 g0 h0 (0 :: []) 1).err = none :=
  C3_child_output_in_envelope okEngine 1 gs0 hNav [] 0 "nav" 1 (by decide) (by decide)
    (by decide)

/-! ### C2: non-destructive (first-writer-wins) injection -/

/-- C2: injecting a parent's data into a child never overwrites a key the
child already has — for the local map (`injectData`, when it does not panic)
and the global map (`injectGlobalData`) alike a present key keeps the child's
value and only absent keys are copied; in particular child `x:1` merged with
parent `x:2, y:3` yields exactly `x:1, y:3`. -/
theorem C2_injection_first_writer_wins :
    (∀ (c c' : Component) (m l : DataMap) (k : String),
      c.templateData = some m →
      c.injectData (some l) = some c' →
      tdLookup c' k =
        match lookupStr m k with
        | some v => some v
        | none => lookupStr l k) ∧
    (∀ (c : Component) (input : Option DataMap) (k : String),
      gdLookup (c.injectGlobalData input) k =
        match gdLookup c k with
        | some v => some v
        | none => odLookup input k) ∧
    (∀ (c c' : Component),
      c.templateData = some [("x", Value.vInt 1)] →
      c.injectData (some [("x", Value.vInt 2), ("y", Value.vInt 3)]) = some c' →
      c'.templateData = some [("x", Value.vInt 1), ("y", Value.vInt 3)] ∧
      tdLookup c' "x" = some (Value.vInt 1) ∧ tdLookup c' "y" = some (Value.vInt 3)) := by
  refine ⟨?_, ?_, ?_⟩
  · intro c c' m l k htd hinj
    have h0 := injectData_lookup c c' (some l) k hinj
    rw [h0]
    have ht : tdLookup c k = lookupStr m k := by
      simp [tdLookup, odLookup, htd]
    rw [ht]
    cases lookupStr m k <;> rfl
  · intro c input k
    exact injectGlobalData_lookup c input k
  · intro c c' htd hinj
    unfold Component.injectData at hinj
    rw [htd] at hinj
    have hinj' : some { c with templateData := some (injectFold [("x", Value.vInt 1)] [("x", Value.vInt 2), ("y", Value.vInt 3)]) } = some c' := hinj
    injection hinj' with hc
    subst hc
    exact ⟨rfl, rfl, rfl⟩

/-- The child of the spec's running example (`x:1`). -/
def cChild : Component := { compDefault with templateData := some [("x", Value.vInt 1)] }

/-- The same child after injecting the parent's `x:2, y:3`. -/
def cChildInj : Component :=
  { compDefault with templateData := some [("x", Value.vInt 1), ("y", Value.vInt 3)] }

/-- Witness for C2: the concrete spec example evaluated. -/
theorem C2_injection_first_writer_wins_witness :
    cChild.templateData = some [("x", Value.vInt 1)] ∧
    cChild.injectData (some [("x", Value.vInt 2), ("y", Value.vInt 3)]) = some cChildInj ∧
    (cChildInj.templateData = some [("x", Value.vInt 1), ("y", Value.vInt 3)] ∧
     tdLookup cChildInj "x" = some (Value.vInt 1) ∧
     tdLookup cChildInj "y" = some (Value.vInt 3)) :=
  ⟨rfl, rfl, C2_injection_first_writer_wins.2.2 cChild cChildInj rfl rfl⟩

/-! ### C4: the cache key -/

/-- Counterexample to C4 as stated: two renders whose template identifier
sets differ (in a non-first position) still map to the same cache key, so
key equality does not coincide with template-set equality — only the first
identifier enters the key. -/
theorem C4_cache_key_counterexample :
    generateCacheKey ["a.html", "b.html"] [] = generateCacheKey ["a.html", "c.html"] [] ∧
    ["a.html", "b.html"] ≠ ["a.html", "c.html"] :=
  ⟨rfl, by decide⟩

/-- C4 amended: the cache key is computed from the FIRST template identifier
together with the sorted function-name set — equal first identifiers and
equal sorted name sets give equal keys, so neither function insertion order
nor function implementations nor any non-first template identifier affects
the key (the second conjunct exercises all three at once). -/
theorem C4_cache_key_determined :
    (∀ (t1 t2 : List String) (f1 f2 : FuncMap),
      t1.head! = t2.head! →
      sortStrings (f1.map Prod.fst) = sortStrings (f2.map Prod.fst) →
      generateCacheKey t1 f1 = generateCacheKey t2 f2) ∧
    generateCacheKey ["a.html", "b.html"] [("g", 0), ("f", 1)]
      = generateCacheKey ["a.html", "c.html"] [("f", 2), ("g", 3)] := by
  have h1 : ∀ (t1 t2 : List String) (f1 f2 : FuncMap),
      t1.head! = t2.head! →
      sortStrings (f1.map Prod.fst) = sortStrings (f2.map Prod.fst) →
      generateCacheKey t1 f1 = generateCacheKey t2 f2 := by
    intro t1 t2 f1 f2 hh hs
    unfold generateCacheKey
    rw [hh, hs]
  exact ⟨h1, h1 _ _ _ _ rfl rfl⟩

/-- Witness for the amended C4: concrete lists with different tails and
different function ids but equal first identifier and name set. -/
theorem C4_cache_key_determined_witness :
    generateCacheKey ["a.html", "x.html"] [("g", 0)] = generateCacheKey ["a.html"] [("g", 7)] :=
  C4_cache_key_determined.1 ["a.html", "x.html"] ["a.html"] [("g", 0)] [("g", 7)] rfl rfl

/-! ### C5: URL propagation -/

/-- A fold of `setURLH` calls only ever rewrites url fields to `u`: every
component is either untouched or has exactly its url replaced. -/
theorem setURLfold_shape (u : Option String) (fuel : Nat)
    (ihf : ∀ (h : Heap) (c i : Cid),
      setURLH fuel h c u i = h i ∨ setURLH fuel h c u i = { h i with url := u }) :
    ∀ (l : List (String × Cid)) (h h1 : Heap),
      (∀ i, h1 i = h i ∨ h1 i = { h i with url := u }) →
      ∀ i, (l.foldl (fun acc kv => setURLH fuel acc kv.2 u) h1) i = h i ∨
           (l.foldl (fun acc kv => setURLH fuel acc kv.2 u) h1) i = { h i with url := u } := by
  intro l
  induction l with
  | nil => intro h h1 hR i; exact hR i
  | cons kv rest ihl =>
    intro h h1 hR i
    rw [List.foldl_cons]
    apply ihl
    intro j
    rcases ihf h1 kv.2 j with h2 | h2 <;> rcases hR j with h3 | h3
    · rw [h2]; exact Or.inl h3
    · rw [h2]; exact Or.inr h3
    · rw [h2, h3]; exact Or.inr rfl
    · rw [h2, h3]; exact Or.inr rfl

/-- `SetURL` only ever rewrites url fields to the url being set. -/
theorem setURLH_shape (u : Option String) :
    ∀ (fuel : Nat) (h : Heap) (c i : Cid),
      setURLH fuel h c u i = h i ∨ setURLH fuel h c u i = { h i with url := u } := by
  intro fuel
  induction fuel with
  | zero => intro h c i; exact Or.inl rfl
  | succ fuel ih =>
    intro h c i
    have hbase : ∀ j, (updateH h c { h c with url := u }) j = h j ∨
        (updateH h c { h c with url := u }) j = { h j with url := u } := by
      intro j
      by_cases hj : j = c
      · subst hj; rw [updateH_self]; exact Or.inr rfl
      · rw [updateH_other _ _ _ _ hj]; exact Or.inl rfl
    exact setURLfold_shape u fuel ih
      (((updateH h c { h c with url := u }) c).withChildren) h
      (updateH h c { h c with url := u }) hbase i

/-- `SetURL` with any fuel left sets the target's url. -/
theorem setURLH_self (fuel : Nat) (h : Heap) (c : Cid) (u : Option String) :
    ((setURLH (fuel + 1) h c u) c).url = u := by
  have hfold := setURLfold_shape u fuel (setURLH_shape u fuel)
    (((updateH h c { h c with url := u }) c).withChildren)
    (updateH h c { h c with url := u }) (updateH h c { h c with url := u })
    (fun _ => Or.inl rfl) c
  show ((((updateH h c { h c with url := u }) c).withChildren).foldl
      (fun acc kv => setURLH fuel acc kv.2 u) (updateH h c { h c with url := u }) c).url = u
  rcases hfold with h2 | h2
  · rw [h2, updateH_self]
  · rw [h2]

/-- Folding `SetURL` over a child list sets the url of every listed child. -/
theorem setURLfold_mem (u : Option String) (fuel : Nat) :
    ∀ (l : List (String × Cid)) (h1 : Heap) (s : String) (r : Cid),
      (s, r) ∈ l →
      ((l.foldl (fun acc kv => setURLH (fuel + 1) acc kv.2 u) h1) r).url = u := by
  intro l
  induction l with
  | nil => intro h1 s r hmem; cases hmem
  | cons kv rest ihl =>
    intro h1 s r hmem
    rw [List.foldl_cons]
    rcases List.mem_cons.mp hmem with hhead | htail
    · obtain ⟨key, rc⟩ := kv
      injection hhead with hs hr
      subst hs
      subst hr
      have hfold := setURLfold_shape u (fuel + 1) (setURLH_shape u (fuel + 1)) rest
        (setURLH (fuel + 1) h1 r u) (setURLH (fuel + 1) h1 r u) (fun _ => Or.inl rfl) r
      rcases hfold with h2 | h2
      · rw [h2]
        exact setURLH_self fuel h1 r u
      · rw [h2]
    · exact ihl _ s r htail

/-- `SetURL` on a parent propagates the url to every currently registered
child. -/
theorem setURLH_child (fuel : Nat) (h : Heap) (c : Cid) (u : Option String)
    (s : String) (r : Cid) (hmem : (s, r) ∈ (h c).withChildren) :
    ((setURLH (fuel + 2) h c u) r).url = u := by
  show ((((updateH h c { h c with url := u }) c).withChildren).foldl
      (fun acc kv => setURLH (fuel + 1) acc kv.2 u) (updateH h c { h c with url := u }) r).url = u
  have hwc : ((updateH h c { h c with url := u }) c).withChildren = (h c).withChildren := by
    rw [updateH_self]
  rw [hwc]
  exact setURLfold_mem u fuel ((h c).withChildren) _ s r hmem

/-- `With` on a parent whose url is set eagerly propagates that url to the
newly registered child. -/
theorem WithH_url_eager (fuel : Nat) (h : Heap) (c r : Cid) (target : String) (u : String)
    (hurl : (h c).url = some u) :
    ((WithH (fuel + 1) h c r target) r).url = some u := by
  unfold WithH
  rw [hurl]
  by_cases hrc : r = c
  · subst hrc
    rw [updateH_self]
    show ((setURLH (fuel + 1) h r (some u)) r).url = some u
    exact setURLH_self fuel h r (some u)
  · rw [updateH_other _ _ _ _ hrc]
    exact setURLH_self fuel h r (some u)

/-- `With` on a parent with no url touches no child url. -/
theorem WithH_no_url (fuel : Nat) (h : Heap) (c r : Cid) (target : String)
    (hurl : (h c).url = none) :
    ((WithH fuel h c r target) r).url = (h r).url := by
  unfold WithH
  rw [hurl]
  by_cases hrc : r = c
  · subst hrc
    rw [updateH_self]
  · rw [updateH_other _ _ _ _ hrc]

/-- `With` registers the child under the target slot. -/
theorem WithH_registers (fuel : Nat) (h : Heap) (c r : Cid) (target : String) :
    lookupStr ((WithH fuel h c r target) c).withChildren target = some r := by
  unfold WithH
  cases hu : (h c).url with
  | none =>
    rw [updateH_self, lookupStr_updateAssoc]
    simp
  | some u =>
    rw [updateH_self, lookupStr_updateAssoc]
    simp

/-- C5 amended: `SetURL` sets the parent's url and recursively propagates it
to every child registered at that moment; but a child registered afterward
via `With` DOES receive the parent's current url immediately at `With` time
whenever the parent has one (eager propagation — no second `SetURL` call is
needed); only a parent with no url leaves the new child's url untouched. -/
theorem C5_url_propagation :
    (∀ (fuel : Nat) (h : Heap) (c : Cid) (u : Option String),
      ((setURLH (fuel + 1) h c u) c).url = u) ∧
    (∀ (fuel : Nat) (h : Heap) (c : Cid) (u : Option String) (s : String) (r : Cid),
      (s, r) ∈ (h c).withChildren →
      ((setURLH (fuel + 2) h c u) r).url = u) ∧
    (∀ (fuel : Nat) (h : Heap) (c r : Cid) (target : String) (u : String),
      (h c).url = some u →
      ((WithH (fuel + 1) h c r target) r).url = some u) ∧
    (∀ (fuel : Nat) (h : Heap) (c r : Cid) (target : String),
      (h c).url = none →
      ((WithH fuel h c r target) r).url = (h r).url) ∧
    (∀ (fuel : Nat) (h : Heap) (c r : Cid) (target : String),
      lookupStr ((WithH fuel h c r target) c).withChildren target = some r) :=
  ⟨fun fuel h c u => setURLH_self fuel h c u,
   fun fuel h c u s r hmem => setURLH_child fuel h c u s r hmem,
   fun fuel h c r target u hurl => WithH_url_eager fuel h c r target u hurl,
   fun fuel h c r target hurl => WithH_no_url fuel h c r target hurl,
   fun fuel h c r target => WithH_registers fuel h c r target⟩

/-- Parent `0` with url `"/x"` already set and child `1` registered. -/
def hPar : Heap := fun i =>
  if i = 0 then { compDefault with withChildren := [("s", 1)], url := some "/x" }
  else compDefault

/-- Counterexample to C5 as stated: component `1` has no url, is registered
on parent `0` (whose url is already set) via `With`, and immediately holds
the parent's url — no second `SetURL` call happened. -/
theorem C5_url_propagation_counterexample :
    (hPar 1).url = none ∧ ((WithH 1 hPar 0 1 "slot") 1).url = some "/x" :=
  ⟨rfl, by decide⟩

/-- Witness for the amended C5 on concrete heaps. -/
theorem C5_url_propagation_witness :
    ((setURLH 1 hPar 0 (some "/y")) 0).url = some "/y" ∧
    ((setURLH 2 hPar 0 (some "/y")) 1).url = some "/y" ∧
    ((WithH 1 hPar 0 2 "t") 2).url = some "/x" ∧
    ((WithH 1 hEmpty 0 2 "t") 2).url = none ∧
    lookupStr ((WithH 1 hPar 0 2 "t") 0).withChildren "t" = some 2 :=
  ⟨C5_url_propagation.1 0 hPar 0 (some "/y"),
   C5_url_propagation.2.1 0 hPar 0 (some "/y") "s" 1 (by decide),
   C5_url_propagation.2.2.1 0 hPar 0 2 "t" "/x" rfl,
   C5_url_propagation.2.2.2.1 1 hEmpty 0 2 "t" rfl,
   C5_url_propagation.2.2.2.2 1 hPar 0 2 "t"⟩

/-! ### C8: lazy map creation and the nil-map panic -/

/-- Counterexample to C8 as stated: `SetData(nil)` leaves the local map nil,
and the injection performed on such a child during a parent's `Render`
panics (assignment to an entry in a nil map) as soon as the parent has one
local key — `injectData` has no lazy-creation nil check. -/
theorem C8_lazy_map_creation_counterexample :
    ((NewComponent ["t"]).SetData none).injectData (some [("x", Value.vInt 1)]) = none := rfl

/-- C8 amended: `AddData`, `AddGlobalData` and `injectGlobalData` lazily
create their map when it is nil and never panic; but `injectData` does NOT —
with a nil local map it panics as soon as the injected data has a key, and
only a non-nil local map makes injection total. -/
theorem C8_lazy_map_creation :
    (∀ (c : Component) (k : String) (v : Value),
      (c.AddData k v).templateData = some (updateAssoc (c.templateData.getD []) k v)) ∧
    (∀ (c : Component) (k : String) (v : Value),
      (c.AddGlobalData k v).globalData = some (updateAssoc (c.globalData.getD []) k v)) ∧
    (∀ (c : Component) (input : Option DataMap),
      (c.injectGlobalData input).globalData
        = some (injectFold (c.globalData.getD []) (input.getD []))) ∧
    (∀ (c : Component) (m : DataMap) (input : Option DataMap),
      c.templateData = some m → ∃ c', c.injectData input = some c') ∧
    (∀ (c : Component) (l : DataMap),
      c.templateData = none → l ≠ [] → c.injectData (some l) = none) := by
  refine ⟨fun c k v => rfl, fun c k v => rfl, fun c input => rfl, ?_, ?_⟩
  · intro c m input htd
    exact injectData_some_of_some c m input htd
  · intro c l htd hl
    obtain ⟨td, wc, pr, gd, wr, wt, ts, u, fns, fs⟩ := c
    have htd' : td = none := htd
    subst htd'
    show (if l = [] then some (Component.mk none wc pr gd wr wt ts u fns fs) else none) = none
    rw [if_neg hl]

/-- Witness for the amended C8: a non-nil local map never panics; the
`SetData(nil)` component panics. -/
theorem C8_lazy_map_creation_witness :
    (∃ c', cChild.injectData (some [("y", Value.vInt 2)]) = some c') ∧
    ((NewComponent ["t"]).SetData none).injectData (some [("x", Value.vInt 1)]) = none :=
  ⟨C8_lazy_map_creation.2.2.2.1 cChild [("x", Value.vInt 1)] (some [("y", Value.vInt 2)]) rfl,
   C8_lazy_map_creation.2.2.2.2 ((NewComponent ["t"]).SetData none) [("x", Value.vInt 1)]
     rfl (by decide)⟩

/-! ### C9: the injection into a child is in-place and survives the call -/

/-- C9: rendering a parent mutates its (first) child in place: whatever the
outcome of `P.Render`, once the child loop has injected `C`, every key of
P's local (resp. global) data is present in C's map in the heap `Render`
returns — with C's own value if C already had the key (first-writer-wins)
and with P's value otherwise — so the inherited bindings survive the call
and a later independent render of C observes them. -/
theorem C9_injection_persists (eng : Engine) (fuel : Nat) (gs : GState) (h h1 : Heap)
    (ctx : List Cid) (P : Cid) (s : String) (C : Cid) (rest : List (String × Cid))
    (hw : (h P).withChildren = (s, C) :: rest)
    (hmemP : P ∉ ctx)
    (hinj : injectDataH h C ((h P).templateData) = some h1) :
    (∀ (k : String) (v : Value), tdLookup (h P) k = some v →
      tdLookup ((render eng (fuel + 1) gs h ctx P).heap C) k
        = some (match tdLookup (h C) k with
                | some w => w
                | none => v)) ∧
    (∀ (k : String) (v : Value), gdLookup (h P) k = some v →
      gdLookup ((render eng (fuel + 1) gs h ctx P).heap C) k
        = some (match gdLookup (h C) k with
                | some w => w
                | none => v)) := by
  have hc' : ∃ c', (h C).injectData ((h P).templateData) = some c' ∧ h1 = updateH h C c' := by
    unfold injectDataH at hinj
    cases hc : (h C).injectData ((h P).templateData) with
    | none => rw [hc] at hinj; exact absurd hinj (by simp)
    | some c' =>
      rw [hc] at hinj
      injection hinj with hinj2
      exact ⟨c', rfl, hinj2.symm⟩
  obtain ⟨c', hc, rfl⟩ := hc'
  -- local bindings of the child right after both injections
  have htd2 : ∀ k, tdLookup ((injectGlobalDataH (updateH h C c') C
      (((updateH h C c') P).globalData)) C) k
      = match tdLookup (h C) k with
        | some w => some w
        | none => odLookup ((h P).templateData) k := by
    intro k
    have e1 : (injectGlobalDataH (updateH h C c') C (((updateH h C c') P).globalData)) C
        = ((updateH h C c') C).injectGlobalData (((updateH h C c') P).globalData) := by
      rw [injectGlobalDataH, updateH_self]
    rw [e1]
    have e2 : tdLookup (((updateH h C c') C).injectGlobalData
        (((updateH h C c') P).globalData)) k = tdLookup ((updateH h C c') C) k := rfl
    rw [e2, updateH_self]
    exact injectData_lookup (h C) c' _ k hc
  -- P's global map is untouched by the local injection
  have hgP : ((updateH h C c') P).globalData = (h P).globalData := by
    by_cases hPC : P = C
    · subst hPC
      rw [updateH_self]
      have hs := injectData_shape _ _ _ hc
      rw [hs]
    · rw [updateH_other _ _ _ _ hPC]
  -- global bindings of the child right after both injections
  have hgd2 : ∀ k, gdLookup ((injectGlobalDataH (updateH h C c') C
      (((updateH h C c') P).globalData)) C) k
      = match gdLookup (h C) k with
        | some w => some w
        | none => odLookup ((h P).globalData) k := by
    intro k
    have e1 : (injectGlobalDataH (updateH h C c') C (((updateH h C c') P).globalData)) C
        = ((updateH h C c') C).injectGlobalData (((updateH h C c') P).globalData) := by
      rw [injectGlobalDataH, updateH_self]
    rw [e1, injectGlobalData_lookup]
    have e3 : gdLookup ((updateH h C c') C) k = gdLookup (h C) k := by
      rw [updateH_self]
      have hs := injectData_shape _ _ _ hc
      show odLookup c'.globalData k = odLookup (h C).globalData k
      rw [hs]
    rw [e3, hgP]
  -- the heap Render returns extends the doubly injected heap
  have hmain : ∃ hf, (render eng (fuel + 1) gs h ctx P).heap = hf ∧
      HeapStep (injectGlobalDataH (updateH h C c') C (((updateH h C c') P).globalData)) hf := by
    rcases hr : render eng fuel gs
        (injectGlobalDataH (updateH h C c') C (((updateH h C c') P).globalData))
        (P :: ctx) C with ⟨gs1, h3, out, oe⟩
    have step23 : HeapStep
        (injectGlobalDataH (updateH h C c') C (((updateH h C c') P).globalData)) h3 := by
      have hst := render_heapStep eng fuel gs
        (injectGlobalDataH (updateH h C c') C (((updateH h C c') P).globalData)) (P :: ctx) C
      rw [hr] at hst
      exact hst
    cases oe with
    | some e =>
      have hloop : renderChildren (fun a b d => render eng fuel a b (P :: ctx) d) gs h P
          ((h P).withChildren) = ⟨gs1, h3, some e⟩ := by
        rw [hw, renderChildren_cons]
        simp only [hinj]
        simp only [hr]
      rw [render_childErr eng fuel gs h ctx P gs1 h3 e hmemP hloop]
      exact ⟨h3, rfl, step23⟩
    | none =>
      cases hap : addPartialH h3 P s (Value.vHtml out) with
      | none =>
        have hloop : renderChildren (fun a b d => render eng fuel a b (P :: ctx) d) gs h P
            ((h P).withChildren) = ⟨gs1, h3, some .nilMapWrite⟩ := by
          rw [hw, renderChildren_cons]
          simp only [hinj]
          simp only [hr]
          simp only [hap]
        rw [render_childErr eng fuel gs h ctx P gs1 h3 .nilMapWrite hmemP hloop]
        exact ⟨h3, rfl, step23⟩
      | some h4 =>
        have step34 : HeapStep h3 h4 := heapStep_addPartialH h3 h4 P _ _ hap
        rcases hrest : renderChildren (fun a b d => render eng fuel a b (P :: ctx) d)
            gs1 h4 P rest with ⟨gs2, h5, oe2⟩
        have step45 : HeapStep h4 h5 := by
          have hst := renderChildren_heapStep (fun a b d => render eng fuel a b (P :: ctx) d)
            (fun a b d => render_heapStep eng fuel a b (P :: ctx) d) rest gs1 h4 P
          rw [hrest] at hst
          exact hst
        have hloop : renderChildren (fun a b d => render eng fuel a b (P :: ctx) d) gs h P
            ((h P).withChildren) = ⟨gs2, h5, oe2⟩ := by
          rw [hw, renderChildren_cons]
          simp only [hinj]
          simp only [hr]
          simp only [hap]
          exact hrest
        cases oe2 with
        | some e =>
          rw [render_childErr eng fuel gs h ctx P gs2 h5 e hmemP hloop]
          exact ⟨h5, rfl, heapStep_comp (heapStep_comp step23 step34) step45⟩
        | none =>
          have heq := render_childrenOk eng fuel gs h ctx P gs2 h5 hmemP hloop
          refine ⟨h5, ?_, heapStep_comp (heapStep_comp step23 step34) step45⟩
          rw [heq]
          cases (h5 P).templates with
          | nil => rfl
          | cons t ts => rfl
  obtain ⟨hf, hfeq, hstep⟩ := hmain
  constructor
  · intro k v hv
    rw [hfeq]
    have hbind : tdLookup ((injectGlobalDataH (updateH h C c') C
        (((updateH h C c') P).globalData)) C) k
        = some (match tdLookup (h C) k with
                | some w => w
                | none => v) := by
      rw [htd2 k]
      cases htd : tdLookup (h C) k
      · exact hv
      · rfl
    exact (hstep C).td_mono k _ hbind
  · intro k v hv
    rw [hfeq]
    have hbind : gdLookup ((injectGlobalDataH (updateH h C c') C
        (((updateH h C c') P).globalData)) C) k
        = some (match gdLookup (h C) k with
                | some w => w
                | none => v) := by
      rw [hgd2 k]
      cases hgd : gdLookup (h C) k
      · exact hv
      · rfl
    exact (hstep C).gd_mono k _ hbind

/-- The parent of the C9 witness: local `a:1`, global `g:7`, child `1`. -/
def hInjParent : Component :=
  { compDefault with
      withChildren := [("s", 1)]
      templates := ["p.html"]
      templateData := some [("a", Value.vInt 1)]
      globalData := some [("g", Value.vInt 7)] }

/-- Parent `0` with local `a:1` and global `g:7`, child `1` fresh. -/
def hInj : Heap := fun i =>
  if i = 0 then hInjParent else { compDefault with templates := ["c.html"] }

/-- The child of `hInj` after the parent's local data has been injected. -/
def hInjChild : Component :=
  { compDefault with templates := ["c.html"], templateData := some [("a", Value.vInt 1)] }

/-- Witness for C9: after the parent's render the child's maps (in the heap
the render call returns) hold the inherited bindings. -/
theorem C9_injection_persists_witness :
    tdLookup ((render okEngine 2 gs0 hInj [] 0).heap 1) "a" = some (Value.vInt 1) ∧
    gdLookup ((render okEngine 2 gs0 hInj [] 0).heap 1) "g" = some (Value.vInt 7) :=
  ⟨(C9_injection_persists okEngine 1 gs0 hInj (updateH hInj 1 hInjChild) [] 0 "s" 1 []
      rfl (by decide) rfl).1 "a" (Value.vInt 1) rfl,
   (C9_injection_persists okEngine 1 gs0 hInj (updateH hInj 1 hInjChild) [] 0 "s" 1 []
      rfl (by decide) rfl).2 "g" (Value.vInt 7) rfl⟩

/-! ### C10: the wrap fields are write-only for Render -/

/-- Overwrite a component's wrap fields (the only fields `Wrap` touches). -/
def setWrapC (c : Component) (wr : Option Cid) (wt : String) : Component :=
  { c with wrappedRenderer := wr, wrappedTarget := wt }

/-- Overwrite the wrap fields throughout the heap: the states reachable by
any sequence of prior `Wrap` calls on any components. -/
def setWrapAll (h : Heap) (w : Cid → Option Cid) (t : Cid → String) : Heap :=
  fun i => setWrapC (h i) (w i) (t i)

theorem setWrapAll_templateData (h : Heap) (w : Cid → Option Cid) (t : Cid → String) (i : Cid) :
    ((setWrapAll h w t) i).templateData = (h i).templateData := rfl

theorem setWrapAll_globalData (h : Heap) (w : Cid → Option Cid) (t : Cid → String) (i : Cid) :
    ((setWrapAll h w t) i).globalData = (h i).globalData := rfl

theorem setWrapAll_withChildren (h : Heap) (w : Cid → Option Cid) (t : Cid → String) (i : Cid) :
    ((setWrapAll h w t) i).withChildren = (h i).withChildren := rfl

theorem setWrapAll_templates (h : Heap) (w : Cid → Option Cid) (t : Cid → String) (i : Cid) :
    ((setWrapAll h w t) i).templates = (h i).templates := rfl

theorem setWrapAll_updateH (h : Heap) (w : Cid → Option Cid) (t : Cid → String)
    (i : Cid) (c : Component) :
    setWrapAll (updateH h i c) w t = updateH (setWrapAll h w t) i (setWrapC c (w i) (t i)) := by
  funext j
  by_cases hj : j = i
  · subst hj
    show setWrapC ((updateH h j c) j) (w j) (t j) = (updateH (setWrapAll h w t) j (setWrapC c (w j) (t j))) j
    rw [updateH_self, updateH_self]
  · show setWrapC ((updateH h i c) j) (w j) (t j) = (updateH (setWrapAll h w t) i (setWrapC c (w i) (t i))) j
    rw [updateH_other _ _ _ _ hj, updateH_other _ _ _ _ hj]
    rfl

theorem setWrapC_injectData (c : Component) (wr : Option Cid) (wt : String)
    (input : Option DataMap) :
    (setWrapC c wr wt).injectData input = (c.injectData input).map (fun x => setWrapC x wr wt) := by
  cases input with
  | none => rfl
  | some l =>
    show (match (setWrapC c wr wt).templateData with
      | some m => some { setWrapC c wr wt with templateData := some (injectFold m l) }
      | none => if l = [] then some (setWrapC c wr wt) else none) = _
    cases htd : c.templateData with
    | some m =>
      have htd' : (setWrapC c wr wt).templateData = some m := htd
      rw [htd']
      show _ = (Option.map _ (match c.templateData with
        | some m => some { c with templateData := some (injectFold m l) }
        | none => if l = [] then some c else none))
      rw [htd]
      rfl
    | none =>
      have htd' : (setWrapC c wr wt).templateData = none := htd
      rw [htd']
      show _ = (Option.map _ (match c.templateData with
        | some m => some { c with templateData := some (injectFold m l) }
        | none => if l = [] then some c else none))
      rw [htd]
      by_cases hl : l = []
      · rw [if_pos hl, if_pos hl]
        rfl
      · rw [if_neg hl, if_neg hl]
        rfl

theorem setWrapC_injectGlobalData (c : Component) (wr : Option Cid) (wt : String)
    (input : Option DataMap) :
    (setWrapC c wr wt).injectGlobalData input = setWrapC (c.injectGlobalData input) wr wt := rfl

theorem setWrapC_addPartial (c : Component) (wr : Option Cid) (wt : String)
    (key : String) (v : Value) :
    (setWrapC c wr wt).addPartial key v = (c.addPartial key v).map (fun x => setWrapC x wr wt) := by
  show (match (setWrapC c wr wt).partialResults with
    | some m => some { setWrapC c wr wt with partialResults := some (updateAssoc m key v) }
    | none => none) = _
  cases hp : c.partialResults with
  | some m =>
    have hp' : (setWrapC c wr wt).partialResults = some m := hp
    rw [hp']
    show _ = (Option.map _ (match c.partialResults with
      | some m => some { c with partialResults := some (updateAssoc m key v) }
      | none => none))
    rw [hp]
    rfl
  | none =>
    have hp' : (setWrapC c wr wt).partialResults = none := hp
    rw [hp']
    show _ = (Option.map _ (match c.partialResults with
      | some m => some { c with partialResults := some (updateAssoc m key v) }
      | none => none))
    rw [hp]
    rfl

theorem injectDataH_setWrap (h : Heap) (w : Cid → Option Cid) (t : Cid → String)
    (i : Cid) (input : Option DataMap) :
    injectDataH (setWrapAll h w t) i input
      = (injectDataH h i input).map (fun hh => setWrapAll hh w t) := by
  unfold injectDataH
  have e1 : ((setWrapAll h w t) i).injectData input
      = ((h i).injectData input).map (fun x => setWrapC x (w i) (t i)) :=
    setWrapC_injectData (h i) (w i) (t i) input
  rw [e1]
  cases hc : (h i).injectData input with
  | none => rfl
  | some c' =>
    show some (updateH (setWrapAll h w t) i (setWrapC c' (w i) (t i)))
      = some (setWrapAll (updateH h i c') w t)
    rw [setWrapAll_updateH]

theorem injectGlobalDataH_setWrap (h : Heap) (w : Cid → Option Cid) (t : Cid → String)
    (i : Cid) (input : Option DataMap) :
    injectGlobalDataH (setWrapAll h w t) i input
      = setWrapAll (injectGlobalDataH h i input) w t := by
  unfold injectGlobalDataH
  rw [setWrapAll_updateH]
  rfl

theorem addPartialH_setWrap (h : Heap) (w : Cid → Option Cid) (t : Cid → String)
    (i : Cid) (key : String) (v : Value) :
    addPartialH (setWrapAll h w t) i key v
      = (addPartialH h i key v).map (fun hh => setWrapAll hh w t) := by
  unfold addPartialH
  have e1 : ((setWrapAll h w t) i).addPartial key v
      = ((h i).addPartial key v).map (fun x => setWrapC x (w i) (t i)) :=
    setWrapC_addPartial (h i) (w i) (t i) key v
  rw [e1]
  cases hc : (h i).addPartial key v with
  | none => rfl
  | some c' =>
    show some (updateH (setWrapAll h w t) i (setWrapC c' (w i) (t i)))
      = some (setWrapAll (updateH h i c') w t)
    rw [setWrapAll_updateH]

theorem renderNamed_setWrap (eng : Engine) (gs : GState) (h : Heap)
    (w : Cid → Option Cid) (t : Cid → String) (ctx : List Cid) (c : Cid)
    (name : String) (ts : List String) (input : Option DataMap) :
    renderNamed eng gs (setWrapAll h w t) ctx c name ts input
      = renderNamed eng gs h ctx c name ts input := rfl

theorem renderChildren_setWrap (renderChild renderChild' : GState → Heap → Cid → RenderResult)
    (w : Cid → Option Cid) (t : Cid → String)
    (hrc : ∀ gs h c, renderChild' gs (setWrapAll h w t) c =
      ⟨(renderChild gs h c).gs, setWrapAll (renderChild gs h c).heap w t,
       (renderChild gs h c).html, (renderChild gs h c).err⟩) :
    ∀ (l : List (String × Cid)) (gs : GState) (h : Heap) (p : Cid),
      renderChildren renderChild' gs (setWrapAll h w t) p l =
        ⟨(renderChildren renderChild gs h p l).gs,
         setWrapAll (renderChildren renderChild gs h p l).heap w t,
         (renderChildren renderChild gs h p l).err⟩ := by
  intro l
  induction l with
  | nil => intro gs h p; rfl
  | cons kv rest ihl =>
    intro gs h p
    obtain ⟨key, child⟩ := kv
    cases hinj : injectDataH h child ((h p).templateData) with
    | none =>
      have hL : renderChildren renderChild' gs (setWrapAll h w t) p ((key, child) :: rest)
          = ⟨gs, setWrapAll h w t, some .nilMapWrite⟩ := by
        rw [renderChildren_cons, setWrapAll_templateData, injectDataH_setWrap]
        simp only [hinj, Option.map_none']
      have hR : renderChildren renderChild gs h p ((key, child) :: rest)
          = ⟨gs, h, some .nilMapWrite⟩ := by
        rw [renderChildren_cons]
        simp only [hinj]
      rw [hL, hR]
    | some h1 =>
      rcases hr : renderChild gs (injectGlobalDataH h1 child ((h1 p).globalData)) child with
        ⟨gs1, h3, out, oe⟩
      have hrc1 : renderChild' gs
          (setWrapAll (injectGlobalDataH h1 child ((h1 p).globalData)) w t) child
          = ⟨gs1, setWrapAll h3 w t, out, oe⟩ := by
        rw [hrc, hr]
      cases oe with
      | some e =>
        have hL : renderChildren renderChild' gs (setWrapAll h w t) p ((key, child) :: rest)
            = ⟨gs1, setWrapAll h3 w t, some e⟩ := by
          rw [renderChildren_cons, setWrapAll_templateData, injectDataH_setWrap]
          simp only [hinj, Option.map_some']
          rw [setWrapAll_globalData, injectGlobalDataH_setWrap]
          simp only [hrc1]
        have hR : renderChildren renderChild gs h p ((key, child) :: rest)
            = ⟨gs1, h3, some e⟩ := by
          rw [renderChildren_cons]
          simp only [hinj]
          simp only [hr]
        rw [hL, hR]
      | none =>
        cases hap : addPartialH h3 p key (Value.vHtml out) with
        | none =>
          have hL : renderChildren renderChild' gs (setWrapAll h w t) p ((key, child) :: rest)
              = ⟨gs1, setWrapAll h3 w t, some .nilMapWrite⟩ := by
            rw [renderChildren_cons, setWrapAll_templateData, injectDataH_setWrap]
            simp only [hinj, Option.map_some']
            rw [setWrapAll_globalData, injectGlobalDataH_setWrap]
            simp only [hrc1]
            rw [addPartialH_setWrap]
            simp only [hap, Option.map_none']
          have hR : renderChildren renderChild gs h p ((key, child) :: rest)
              = ⟨gs1, h3, some .nilMapWrite⟩ := by
            rw [renderChildren_cons]
            simp only [hinj]
            simp only [hr]
            simp only [hap]
          rw [hL, hR]
        | some h4 =>
          have hL : renderChildren renderChild' gs (setWrapAll h w t) p ((key, child) :: rest)
              = renderChildren renderChild' gs1 (setWrapAll h4 w t) p rest := by
            rw [renderChildren_cons, setWrapAll_templateData, injectDataH_setWrap]
            simp only [hinj, Option.map_some']
            rw [setWrapAll_globalData, injectGlobalDataH_setWrap]
            simp only [hrc1]
            rw [addPartialH_setWrap]
            simp only [hap, Option.map_some']
          have hR : renderChildren renderChild gs h p ((key, child) :: rest)
              = renderChildren renderChild gs1 h4 p rest := by
            rw [renderChildren_cons]
            simp only [hinj]
            simp only [hr]
            simp only [hap]
          rw [hL, hR, ihl gs1 h4 p]

/-- Rendering ignores the wrap fields entirely: overwriting them everywhere
changes nothing in the result except that the returned heap carries the same
overwritten wrap fields. -/
theorem render_setWrap (eng : Engine) (w : Cid → Option Cid) (t : Cid → String) :
    ∀ (fuel : Nat) (gs : GState) (h : Heap) (ctx : List Cid) (c : Cid),
      render eng fuel gs (setWrapAll h w t) ctx c =
        ⟨(render eng fuel gs h ctx c).gs,
         setWrapAll (render eng fuel gs h ctx c).heap w t,
         (render eng fuel gs h ctx c).html,
         (render eng fuel gs h ctx c).err⟩ := by
  intro fuel
  induction fuel with
  | zero => intro gs h ctx c; rfl
  | succ fuel ih =>
    intro gs h ctx c
    by_cases hmem : c ∈ ctx
    · rw [render_succ, render_succ]
      simp only [hmem, if_pos]
    · rcases hres : renderChildren (fun a b d => render eng fuel a b (c :: ctx) d) gs h c
          ((h c).withChildren) with ⟨gs1, h1, oe⟩
      have hLloop : renderChildren (fun a b d => render eng fuel a b (c :: ctx) d) gs
          (setWrapAll h w t) c (((setWrapAll h w t) c).withChildren)
          = ⟨gs1, setWrapAll h1 w t, oe⟩ := by
        rw [setWrapAll_withChildren]
        have hcomm := renderChildren_setWrap (fun a b d => render eng fuel a b (c :: ctx) d)
          (fun a b d => render eng fuel a b (c :: ctx) d) w t
          (fun a b d => ih a b (c :: ctx) d) ((h c).withChildren) gs h c
        rw [hres] at hcomm
        exact hcomm
      cases oe with
      | some e =>
        have hL := render_childErr eng fuel gs (setWrapAll h w t) ctx c gs1
          (setWrapAll h1 w t) e hmem hLloop
        have hR := render_childErr eng fuel gs h ctx c gs1 h1 e hmem hres
        rw [hL, hR]
      | none =>
        have hL := render_childrenOk eng fuel gs (setWrapAll h w t) ctx c gs1
          (setWrapAll h1 w t) hmem hLloop
        have hR := render_childrenOk eng fuel gs h ctx c gs1 h1 hmem hres
        rw [hL, hR]
        rw [setWrapAll_templates, setWrapAll_templateData]
        cases hts : (h1 c).templates with
        | nil => rfl
        | cons t1 ts =>
          show (let rn := (renderNamed eng gs1 (setWrapAll h1 w t) (c :: ctx) c (baseName t1) (t1 :: ts) ((h1 c).templateData));
            (⟨rn.1, setWrapAll h1 w t, rn.2.1, rn.2.2⟩ : RenderResult)) = _
          rw [renderNamed_setWrap]

/-- C10: `Wrap` writes exactly the wrapped-renderer and wrapped-target
fields, and `Render` never reads them — for every engine, state, heap,
context and component, the HTML, error and cache state of `Render` are
unchanged under arbitrary rewrites of all wrap fields (any sequence of prior
`Wrap` calls). -/
theorem C10_wrap_never_read :
    (∀ (c : Component) (r : Cid) (target : String),
      Component.Wrap c r target
        = { c with wrappedRenderer := some r, wrappedTarget := target }) ∧
    (∀ (eng : Engine) (fuel : Nat) (gs : GState) (h : Heap) (ctx : List Cid) (c : Cid)
        (w : Cid → Option Cid) (t : Cid → String),
      (render eng fuel gs (setWrapAll h w t) ctx c).html = (render eng fuel gs h ctx c).html ∧
      (render eng fuel gs (setWrapAll h w t) ctx c).err = (render eng fuel gs h ctx c).err ∧
      (render eng fuel gs (setWrapAll h w t) ctx c).gs = (render eng fuel gs h ctx c).gs) :=
  ⟨fun _ _ _ => rfl,
   fun eng fuel gs h ctx c w t => by
     rw [render_setWrap eng w t fuel gs h ctx c]
     exact ⟨rfl, rfl, rfl⟩⟩

end GoHtmx
